import Mathlib

/-!
Verification development for the Sophia8 virtual computer and its assembler.

The definitions below are a shallow embedding of the C++ sources:
* the VM (registers, memory, MMIO, instruction handlers, dispatcher,
  snapshot save/restore, breakpoint resolver), and
* the strict two-pass assembler (preprocessed line stream to memory image).

Machine integers are modelled as `Nat` with explicit `% 256` at every
assignment to a `uint8_t` variable and `% 65536` at every assignment to a
`uint16_t` variable, mirroring the C conversions.  The host console is
modelled as a stream: `stdinBytes` holds the bytes the terminal would
deliver, `out` collects the bytes written via `putchar`.  Where the C code
reads an indeterminate `static` local on the unknown-register-token path
(undefined program behaviour per the manual), the model uses `0`; no
theorem below depends on those paths.  Byte extraction on 16-bit values is
written arithmetically: `v & 0x00FF` as `v % 256` and `(v & 0xFF00) >> 8`
as `v / 256 % 256`, which agree with the C expressions on all `uint16`
values.
-/

namespace Sophia8

def MEM_SIZE : Nat := 0xFFFF

/-- Register token bytes (definitions.h). -/
def IIP : Nat := 0xFA
def ISP : Nat := 0xFB
def IBP : Nat := 0xFC

/-- VM state: the eight `uint8_t` registers, the three `uint16_t` pointer
registers, the carry byte, the RAM array `mem[MEM_SIZE]` (as a function on
addresses), the `STOP` trigger, and the modelled console. -/
structure Machine where
  r : Fin 8 → Nat
  ip : Nat
  sp : Nat
  bp : Nat
  c : Nat
  mem : Nat → Nat
  stop : Nat
  kbdQueued : Option Nat
  stdinBytes : List Nat
  out : List Nat

/-- Pointwise update of the RAM array (`mem[a] = v`). -/
def setMem (f : Nat → Nat) (a v : Nat) : Nat → Nat :=
  fun x => if x = a then v else f x

/-- Pointwise update of the register file (`r[n] = v`). -/
def updR (f : Fin 8 → Nat) (n : Fin 8) (v : Nat) : Fin 8 → Nat :=
  fun j => if j = n then v else f j

/-- The `case IR0: ... case IR7:` dispatch used by every handler: maps a
register token byte `0xF2..0xF9` to the register index, `none` for the
`default:` branch. -/
def gprIndex? (tok : Nat) : Option (Fin 8) :=
  if tok = 0xF2 then some 0
  else if tok = 0xF3 then some 1
  else if tok = 0xF4 then some 2
  else if tok = 0xF5 then some 3
  else if tok = 0xF6 then some 4
  else if tok = 0xF7 then some 5
  else if tok = 0xF8 then some 6
  else if tok = 0xF9 then some 7
  else none

/-- `fill_kbd_queue_if_needed`: if no byte is queued and the host terminal
has one pending, queue it (masked to 7-bit ASCII). -/
def fill_kbd_queue_if_needed (m : Machine) : Machine :=
  if m.kbdQueued.isSome then m
  else
    match m.stdinBytes with
    | [] => m
    | b :: rest => { m with kbdQueued := some (b % 128), stdinBytes := rest }

/-- `pop_kbd_byte`: consume the queued byte, `0x00` if none. -/
def pop_kbd_byte (m : Machine) : Nat × Machine :=
  let m1 := fill_kbd_queue_if_needed m
  match m1.kbdQueued with
  | none => (0, m1)
  | some b => (b % 256, { m1 with kbdQueued := none })

/-- `mmio_read` (POSIX branch): `0xFF00` keyboard status, `0xFF01` keyboard
data, `0xFF02` TTY status (always 1), anything else 0. -/
def mmio_read (m : Machine) (address : Nat) : Nat × Machine :=
  if address = 0xFF00 then
    let m1 := fill_kbd_queue_if_needed m
    ((if m1.kbdQueued.isSome then 1 else 0), m1)
  else if address = 0xFF01 then pop_kbd_byte m
  else if address = 0xFF02 then (1, m)
  else (0, m)

/-- `mmio_write`: `0xFF03` writes one byte to the host console, every other
address is ignored. -/
def mmio_write (m : Machine) (address value : Nat) : Machine :=
  if address = 0xFF03 then { m with out := m.out ++ [value % 256] } else m

/-- `mem_read`: the address classifier on the read path. -/
def mem_read (m : Machine) (address : Nat) : Nat × Machine :=
  if 0xFF00 ≤ address ∧ address ≤ 0xFF03 then mmio_read m address
  else if MEM_SIZE ≤ address then (0, m)
  else (m.mem address, m)

/-- `mem_write`: the address classifier on the write path. -/
def mem_write (m : Machine) (address value : Nat) : Machine :=
  if 0xFF00 ≤ address ∧ address ≤ 0xFF03 then mmio_write m address value
  else if MEM_SIZE ≤ address then m
  else { m with mem := setMem m.mem address (value % 256) }

/-- `load_instruction` (`LOAD a, Rn`): the data read goes through
`mem_read`; operand fetches read the RAM array directly. -/
def load_instruction (m : Machine) : Machine :=
  let ms1 := m.mem (m.ip + 1) % 65536
  let ms2 := ms1 * 256 % 65536
  let memory_source := (ms2 + m.mem (m.ip + 2)) % 65536
  let rd := mem_read m memory_source
  let value := rd.1 % 256
  let m1 := rd.2
  let destination := m1.mem (m.ip + 3)
  let m2 :=
    match gprIndex? destination with
    | some n => { m1 with r := updR m1.r n value }
    | none => { m1 with stop := 1 }
  { m2 with ip := (m2.ip + 4) % 65536 }

/-- `store_instruction` (`STORE Rn, a`): the data write goes through
`mem_write`. -/
def store_instruction (m : Machine) : Machine :=
  let source := m.mem (m.ip + 1) % 256
  let md1 := m.mem (m.ip + 2) % 65536
  let md2 := md1 * 256 % 65536
  let memory_destination := (md2 + m.mem (m.ip + 3)) % 65536
  let vm1 : Nat × Machine :=
    match gprIndex? source with
    | some n => (m.r n % 256, m)
    | none => (0, { m with stop := 1 })
  let m2 := mem_write vm1.2 memory_destination vm1.1
  { m2 with ip := (m2.ip + 4) % 65536 }

/-- `storer_instruction` (`STORER Rs, Rh, Rl`). -/
def storer_instruction (m : Machine) : Machine :=
  let source_register := m.mem (m.ip + 1)
  let destination_register_h := m.mem (m.ip + 2)
  let destination_register_l := m.mem (m.ip + 3)
  let vm1 : Nat × Machine :=
    match gprIndex? source_register with
    | some n => (m.r n % 256, m)
    | none => (0, { m with stop := 1 })
  let am2 : Nat × Machine :=
    match gprIndex? destination_register_h with
    | some n => (vm1.2.r n % 65536 * 256 % 65536, vm1.2)
    | none => (0, { vm1.2 with stop := 1 })
  let am3 : Nat × Machine :=
    match gprIndex? destination_register_l with
    | some n => ((am2.1 + am2.2.r n % 65536) % 65536, am2.2)
    | none => (am2.1, { am2.2 with stop := 1 })
  let m4 := mem_write am3.2 am3.1 vm1.1
  { m4 with ip := (m4.ip + 4) % 65536 }

/-- `loadr_instruction` (`LOADR Rd, Rh, Rl`). -/
def loadr_instruction (m : Machine) : Machine :=
  let destination_register := m.mem (m.ip + 1)
  let source_register_h := m.mem (m.ip + 2)
  let source_register_l := m.mem (m.ip + 3)
  let am1 : Nat × Machine :=
    match gprIndex? source_register_h with
    | some n => (m.r n % 65536 * 256 % 65536, m)
    | none => (0, { m with stop := 1 })
  let am2 : Nat × Machine :=
    match gprIndex? source_register_l with
    | some n => ((am1.1 + am1.2.r n % 65536) % 65536, am1.2)
    | none => (am1.1, { am1.2 with stop := 1 })
  let rd := mem_read am2.2 am2.1
  let value := rd.1 % 256
  let m3 := rd.2
  let m4 :=
    match gprIndex? destination_register with
    | some n => { m3 with r := updR m3.r n value }
    | none => { m3 with stop := 1 }
  { m4 with ip := (m4.ip + 4) % 65536 }

/-- `set_instruction` (`SET #i, Rn`). -/
def set_instruction (m : Machine) : Machine :=
  let value := m.mem (m.ip + 1) % 256
  let destination := m.mem (m.ip + 2)
  let m1 :=
    match gprIndex? destination with
    | some n => { m with r := updR m.r n value }
    | none => { m with stop := 1 }
  { m1 with ip := (m1.ip + 3) % 65536 }

/-- `push_instruction` (`PUSH reg`): note the initial `sp--`, the direct
RAM stores `mem[sp] = ...` / `mem[sp-1] = ...`, and the extra `sp--` on
the 16-bit register variants. -/
def push_instruction (m : Machine) : Machine :=
  let m0 := { m with sp := (m.sp + 65535) % 65536 }
  let source := m0.mem (m0.ip + 1)
  if source = IIP then
    let m1 := { m0 with mem := setMem m0.mem m0.sp (m0.ip % 256) }
    let m2 := { m1 with mem := setMem m1.mem (m1.sp - 1) (m1.ip / 256 % 256) }
    { m2 with sp := (m2.sp + 65535) % 65536, ip := (m2.ip + 2) % 65536 }
  else if source = ISP then
    let m1 := { m0 with mem := setMem m0.mem m0.sp (m0.sp % 256) }
    let m2 := { m1 with mem := setMem m1.mem (m1.sp - 1) (m1.sp / 256 % 256) }
    { m2 with sp := (m2.sp + 65535) % 65536, ip := (m2.ip + 2) % 65536 }
  else if source = IBP then
    let m1 := { m0 with mem := setMem m0.mem m0.sp (m0.bp % 256) }
    let m2 := { m1 with mem := setMem m1.mem (m1.sp - 1) (m1.bp / 256 % 256) }
    { m2 with sp := (m2.sp + 65535) % 65536, ip := (m2.ip + 2) % 65536 }
  else
    let vm1 : Nat × Machine :=
      match gprIndex? source with
      | some n => (m0.r n % 256, m0)
      | none => (0, { m0 with stop := 1 })
    let m2 := { vm1.2 with mem := setMem vm1.2.mem vm1.2.sp vm1.1 }
    { m2 with ip := (m2.ip + 2) % 65536 }

/-- `pop_instruction` (`POP reg`): the 16-bit variants read big-endian from
`mem[sp..sp+1]`; the regular `ip += 2` advance still runs after `ip = value`
in the `IP` variant. -/
def pop_instruction (m : Machine) : Machine :=
  let source := m.mem (m.ip + 1)
  if source = IIP then
    let value := (m.mem m.sp % 65536 * 256 % 65536 + m.mem (m.sp + 1) % 65536) % 65536
    { m with ip := (value + 2) % 65536, sp := (m.sp + 2) % 65536 }
  else if source = ISP then
    let value := (m.mem m.sp % 65536 * 256 % 65536 + m.mem (m.sp + 1) % 65536) % 65536
    { m with sp := (value + 2) % 65536, ip := (m.ip + 2) % 65536 }
  else if source = IBP then
    let value := (m.mem m.sp % 65536 * 256 % 65536 + m.mem (m.sp + 1) % 65536) % 65536
    { m with bp := value, sp := (m.sp + 2) % 65536, ip := (m.ip + 2) % 65536 }
  else
    let value := m.mem m.sp % 65536
    let m1 :=
      match gprIndex? source with
      | some n => { m with r := updR m.r n (value % 256) }
      | none => { m with stop := 1 }
    { m1 with sp := (m1.sp + 1) % 65536, ip := (m1.ip + 2) % 65536 }

/-- `inc_instruction`. -/
def inc_instruction (m : Machine) : Machine :=
  let what := m.mem (m.ip + 1)
  let m1 :=
    match gprIndex? what with
    | some n =>
      let v := (m.r n + 1) % 256
      { m with r := updR m.r n v, c := if v = 0 then 1 else 0 }
    | none => { m with stop := 1 }
  { m1 with ip := (m1.ip + 2) % 65536 }

/-- `dec_instruction`. -/
def dec_instruction (m : Machine) : Machine :=
  let what := m.mem (m.ip + 1)
  let m1 :=
    match gprIndex? what with
    | some n =>
      let v := (m.r n + 255) % 256
      { m with r := updR m.r n v, c := if v = 0xFF then 1 else 0 }
    | none => { m with stop := 1 }
  { m1 with ip := (m1.ip + 2) % 65536 }

/-- `jmp_instruction`. -/
def jmp_instruction (m : Machine) : Machine :=
  let j1 := m.mem (m.ip + 1) % 65536 * 256 % 65536
  let jump_address := (j1 + m.mem (m.ip + 2)) % 65536
  { m with ip := jump_address }

/-- `cmp_instruction` (`CMP Rn, #i`): destructive compare. -/
def cmp_instruction (m : Machine) : Machine :=
  let source_register := m.mem (m.ip + 1)
  let value := m.mem (m.ip + 2) % 256
  let m1 :=
    match gprIndex? source_register with
    | some n =>
      { m with c := if m.r n ≥ value then 0 else 1,
               r := updR m.r n ((m.r n + 256 - value) % 256) }
    | none => { m with stop := 1 }
  { m1 with ip := (m1.ip + 3) % 65536 }

/-- `cmpr_instruction` (`CMPR Rn, Rm`): destructive compare against the
pre-value of `Rm`. -/
def cmpr_instruction (m : Machine) : Machine :=
  let register0 := m.mem (m.ip + 1)
  let register1 := m.mem (m.ip + 2)
  let vm1 : Nat × Machine :=
    match gprIndex? register1 with
    | some n => (m.r n % 256, m)
    | none => (0, { m with stop := 1 })
  let m2 :=
    match gprIndex? register0 with
    | some n =>
      { vm1.2 with c := if vm1.2.r n ≥ vm1.1 then 0 else 1,
                   r := updR vm1.2.r n ((vm1.2.r n + 256 - vm1.1) % 256) }
    | none => { vm1.2 with stop := 1 }
  { m2 with ip := (m2.ip + 3) % 65536 }

/-- `jz_instruction`. -/
def jz_instruction (m : Machine) : Machine :=
  let sourceRegister := m.mem (m.ip + 1)
  let j1 := m.mem (m.ip + 2) % 65536 * 256 % 65536
  let jumpAddress := (j1 + m.mem (m.ip + 3)) % 65536
  match gprIndex? sourceRegister with
  | some n =>
    if m.r n = 0 then { m with ip := jumpAddress }
    else { m with ip := (m.ip + 4) % 65536 }
  | none => { m with stop := 1, ip := (m.ip + 4) % 65536 }

/-- `jnz_instruction`. -/
def jnz_instruction (m : Machine) : Machine :=
  let source_register := m.mem (m.ip + 1)
  let j1 := m.mem (m.ip + 2) % 65536 * 256 % 65536
  let jump_address := (j1 + m.mem (m.ip + 3)) % 65536
  match gprIndex? source_register with
  | some n =>
    if m.r n ≠ 0 then { m with ip := jump_address }
    else { m with ip := (m.ip + 4) % 65536 }
  | none => { m with stop := 1, ip := (m.ip + 4) % 65536 }

/-- `jc_instruction`. -/
def jc_instruction (m : Machine) : Machine :=
  let j1 := m.mem (m.ip + 1) % 65536 * 256 % 65536
  let jumpAddress := (j1 + m.mem (m.ip + 2)) % 65536
  if m.c ≠ 0 then { m with ip := jumpAddress }
  else { m with ip := (m.ip + 3) % 65536 }

/-- `jnc_instruction`. -/
def jnc_instruction (m : Machine) : Machine :=
  let j1 := m.mem (m.ip + 1) % 65536 * 256 % 65536
  let jumpAddress := (j1 + m.mem (m.ip + 2)) % 65536
  if m.c = 0 then { m with ip := jumpAddress }
  else { m with ip := (m.ip + 3) % 65536 }

/-- `add_instruction` (`ADD #i, Rn`). -/
def add_instruction (m : Machine) : Machine :=
  let value := m.mem (m.ip + 1) % 256
  let dest_register := m.mem (m.ip + 2)
  let m1 :=
    match gprIndex? dest_register with
    | some n =>
      { m with c := if m.r n + value > 0xFF then 1 else 0,
               r := updR m.r n ((m.r n + value) % 256) }
    | none => { m with stop := 1 }
  { m1 with ip := (m1.ip + 3) % 65536 }

/-- `addr_instruction` (`ADDR Rs, Rd`). -/
def addr_instruction (m : Machine) : Machine :=
  let sourceRegister := m.mem (m.ip + 1)
  let destRegister := m.mem (m.ip + 2)
  let vm1 : Nat × Machine :=
    match gprIndex? sourceRegister with
    | some n => (m.r n % 256, m)
    | none => (0, { m with stop := 1 })
  let m2 :=
    match gprIndex? destRegister with
    | some n =>
      { vm1.2 with c := if vm1.2.r n + vm1.1 > 0xFF then 1 else 0,
                   r := updR vm1.2.r n ((vm1.2.r n + vm1.1) % 256) }
    | none => { vm1.2 with stop := 1 }
  { m2 with ip := (m2.ip + 3) % 65536 }

/-- `call_instruction` (`CALL a`): the return-address stores write the RAM
array directly. -/
def call_instruction (m : Machine) : Machine :=
  let c1 := m.mem (m.ip + 1) % 65536 * 256 % 65536
  let callAddress := (c1 + m.mem (m.ip + 2)) % 65536
  let returnAddress := (m.ip + 3) % 65536
  let m1 := { m with mem := setMem m.mem (m.sp - 2) (returnAddress / 256 % 256) }
  let m2 := { m1 with mem := setMem m1.mem (m1.sp - 1) (returnAddress % 256) }
  { m2 with sp := (m2.sp + 65534) % 65536, ip := callAddress }

/-- `ret_instruction`: reads the return address from the RAM array. -/
def ret_instruction (m : Machine) : Machine :=
  let ip1 := m.mem m.sp % 65536 * 256 % 65536
  let ip2 := (ip1 + m.mem (m.sp + 1)) % 65536
  { m with ip := ip2, sp := (m.sp + 2) % 65536 }

/-- `sub_instruction` (`SUB #i, Rn`). -/
def sub_instruction (m : Machine) : Machine :=
  let value := m.mem (m.ip + 1) % 256
  let destRegister := m.mem (m.ip + 2)
  let m1 :=
    match gprIndex? destRegister with
    | some n =>
      { m with c := if m.r n < value then 1 else 0,
               r := updR m.r n ((m.r n + 256 - value) % 256) }
    | none => { m with stop := 1 }
  { m1 with ip := (m1.ip + 3) % 65536 }

/-- `subr_instruction` (`SUBR Rs, Rd`). -/
def subr_instruction (m : Machine) : Machine :=
  let source_register := m.mem (m.ip + 1)
  let dest_register := m.mem (m.ip + 2)
  let vm1 : Nat × Machine :=
    match gprIndex? source_register with
    | some n => (m.r n % 256, m)
    | none => (0, { m with stop := 1 })
  let m2 :=
    match gprIndex? dest_register with
    | some n =>
      { vm1.2 with c := if vm1.2.r n < vm1.1 then 1 else 0,
                   r := updR vm1.2.r n ((vm1.2.r n + 256 - vm1.1) % 256) }
    | none => { vm1.2 with stop := 1 }
  { m2 with ip := (m2.ip + 3) % 65536 }

/-- `mul_instruction` (`MUL #i, Rh, Rl`). -/
def mul_instruction (m : Machine) : Machine :=
  let value := m.mem (m.ip + 1) % 65536
  let dest_register_h := m.mem (m.ip + 2)
  let dest_register_l := m.mem (m.ip + 3)
  let rm1 : Nat × Machine :=
    match gprIndex? dest_register_l with
    | some n =>
      let result := m.r n % 65536 * value % 65536
      (result, { m with r := updR m.r n (result % 256) })
    | none => (0, { m with stop := 1 })
  let m1 := { rm1.2 with c := if rm1.1 > 0xFF then 1 else 0 }
  let m2 :=
    match gprIndex? dest_register_h with
    | some n => { m1 with r := updR m1.r n (rm1.1 / 256 % 256) }
    | none => { m1 with stop := 1 }
  { m2 with ip := (m2.ip + 4) % 65536 }

/-- `mulr_instruction` (`MULR Rs, Rh, Rl`). -/
def mulr_instruction (m : Machine) : Machine :=
  let srcRegister := m.mem (m.ip + 1)
  let destRegisterH := m.mem (m.ip + 2)
  let destRegisterL := m.mem (m.ip + 3)
  let vm1 : Nat × Machine :=
    match gprIndex? srcRegister with
    | some n => (m.r n % 65536, m)
    | none => (0, { m with stop := 1 })
  let rm1 : Nat × Machine :=
    match gprIndex? destRegisterL with
    | some n =>
      let result := vm1.2.r n % 65536 * vm1.1 % 65536
      (result, { vm1.2 with r := updR vm1.2.r n (result % 256) })
    | none => (0, { vm1.2 with stop := 1 })
  let m1 := { rm1.2 with c := if rm1.1 > 0xFF then 1 else 0 }
  let m2 :=
    match gprIndex? destRegisterH with
    | some n => { m1 with r := updR m1.r n (rm1.1 / 256 % 256) }
    | none => { m1 with stop := 1 }
  { m2 with ip := (m2.ip + 4) % 65536 }

/-- `divInstruction` (`DIV #i, Rq, Rr`); division by zero is undefined in
the source (the model uses `Nat` division, where `x / 0 = 0`, `x % 0 = x`). -/
def divInstruction (m : Machine) : Machine :=
  let value := m.mem (m.ip + 1) % 256
  let dest_register_result := m.mem (m.ip + 2)
  let dest_register_rest := m.mem (m.ip + 3)
  let rm1 : Nat × Machine :=
    match gprIndex? dest_register_result with
    | some n =>
      let result := m.r n / value % 256
      let rest := m.r n % value % 256
      (rest, { m with r := updR m.r n result })
    | none => (0, { m with stop := 1 })
  let m2 :=
    match gprIndex? dest_register_rest with
    | some n => { rm1.2 with r := updR rm1.2.r n rm1.1 }
    | none => { rm1.2 with stop := 1 }
  { m2 with ip := (m2.ip + 4) % 65536 }

/-- `divr_instruction` (`DIVR Rs, Rq, Rr`). -/
def divr_instruction (m : Machine) : Machine :=
  let src_register := m.mem (m.ip + 1)
  let vm1 : Nat × Machine :=
    match gprIndex? src_register with
    | some n => (m.r n % 256, m)
    | none => (0, { m with stop := 1 })
  let dest_register_result := m.mem (m.ip + 2)
  let dest_register_rest := m.mem (m.ip + 3)
  let rm1 : Nat × Machine :=
    match gprIndex? dest_register_result with
    | some n =>
      let result := vm1.2.r n / vm1.1 % 256
      let rest := vm1.2.r n % vm1.1 % 256
      (rest, { vm1.2 with r := updR vm1.2.r n result })
    | none => (0, { vm1.2 with stop := 1 })
  let m2 :=
    match gprIndex? dest_register_rest with
    | some n => { rm1.2 with r := updR rm1.2.r n rm1.1 }
    | none => { rm1.2 with stop := 1 }
  { m2 with ip := (m2.ip + 4) % 65536 }

/-- `shrInstruction` (`SHR #n, Rn`): carry is the last bit shifted out,
`(r >> (val-1)) % 2`; then `r >>= val`. -/
def shrInstruction (m : Machine) : Machine :=
  let val := m.mem (m.ip + 1) % 256
  let what := m.mem (m.ip + 2)
  let m1 :=
    match gprIndex? what with
    | some n =>
      { m with c := (m.r n >>> (val - 1)) % 2,
               r := updR m.r n ((m.r n >>> val) % 256) }
    | none => { m with stop := 1 }
  { m1 with ip := (m1.ip + 3) % 65536 }

/-- `shl_instruction` (`SHL #n, Rn`): carry is set iff the `int`-typed value
`r << (val-1)` exceeds 127; then `r <<= val`. -/
def shl_instruction (m : Machine) : Machine :=
  let val := m.mem (m.ip + 1) % 256
  let what := m.mem (m.ip + 2)
  let m1 :=
    match gprIndex? what with
    | some n =>
      { m with c := if m.r n <<< (val - 1) > 127 then 1 else 0,
               r := updR m.r n ((m.r n <<< val) % 256) }
    | none => { m with stop := 1 }
  { m1 with ip := (m1.ip + 3) % 65536 }

/-- `process_instruction`: dispatches on the opcode byte read directly from
the RAM array (`switch (mem[ip])`), not via `mem_read`.  `NOP` (0xFF)
advances `ip` by one; `HALT` (0x00) and unknown opcodes set `STOP`. -/
def process_instruction (m : Machine) : Machine :=
  let op := m.mem m.ip
  if op = 0x1C then loadr_instruction m
  else if op = 0x01 then load_instruction m
  else if op = 0x02 then store_instruction m
  else if op = 0x03 then storer_instruction m
  else if op = 0x04 then set_instruction m
  else if op = 0x10 then push_instruction m
  else if op = 0x11 then pop_instruction m
  else if op = 0x05 then inc_instruction m
  else if op = 0x06 then dec_instruction m
  else if op = 0x07 then jmp_instruction m
  else if op = 0x08 then cmp_instruction m
  else if op = 0x09 then cmpr_instruction m
  else if op = 0x0A then jz_instruction m
  else if op = 0x0B then jnz_instruction m
  else if op = 0x0C then jc_instruction m
  else if op = 0x0D then jnc_instruction m
  else if op = 0x0E then add_instruction m
  else if op = 0x0F then addr_instruction m
  else if op = 0x12 then call_instruction m
  else if op = 0x13 then ret_instruction m
  else if op = 0x14 then sub_instruction m
  else if op = 0x15 then subr_instruction m
  else if op = 0x16 then mul_instruction m
  else if op = 0x17 then mulr_instruction m
  else if op = 0x18 then divInstruction m
  else if op = 0x19 then divr_instruction m
  else if op = 0x1A then shl_instruction m
  else if op = 0x1B then shrInstruction m
  else if op = 0xFF then { m with ip := (m.ip + 1) % 65536 }
  else { m with stop := 1 }

/-! ## Snapshot save / restore (`save_debug_image` / `load_debug_image`)

The snapshot file is modelled as the list of bytes written / read.  The
layout is the one written by `save_debug_image`: magic `"S8DI"`, version
`0x01`, `r[8]`, `ip`, `sp`, `bp` (each big-endian `u16`), the carry byte,
seven reserved zero bytes, then the `MEM_SIZE` memory bytes. -/

/-- `save_debug_image`: serialize the machine state.  `write_u16_be` writes
`(v >> 8) & 0xFF` then `v & 0xFF`, i.e. `v / 256 % 256` then `v % 256`. -/
def save_debug_image (m : Machine) : List Nat :=
  [83, 56, 68, 73, 1,
   m.r 0, m.r 1, m.r 2, m.r 3, m.r 4, m.r 5, m.r 6, m.r 7,
   m.ip / 256 % 256, m.ip % 256,
   m.sp / 256 % 256, m.sp % 256,
   m.bp / 256 % 256, m.bp % 256,
   m.c,
   0, 0, 0, 0, 0, 0, 0] ++ (List.range MEM_SIZE).map m.mem

/-- `load_debug_image`: parse a snapshot into the machine (console state is
not part of the snapshot).  A short file fails at the corresponding read;
wrong magic or version fails; on success `STOP` is reset to `0`. -/
def load_debug_image (m : Machine) (bytes : List Nat) : Option Machine :=
  if 27 + MEM_SIZE ≤ bytes.length then
    if bytes.getD 0 0 = 83 ∧ bytes.getD 1 0 = 56 ∧ bytes.getD 2 0 = 68 ∧
       bytes.getD 3 0 = 73 then
      if bytes.getD 4 0 = 1 then
        some { m with
               r := fun i => bytes.getD (5 + i.val) 0,
               ip := (bytes.getD 13 0 % 65536 * 256 % 65536 + bytes.getD 14 0 % 65536) % 65536,
               sp := (bytes.getD 15 0 % 65536 * 256 % 65536 + bytes.getD 16 0 % 65536) % 65536,
               bp := (bytes.getD 17 0 % 65536 * 256 % 65536 + bytes.getD 18 0 % 65536) % 65536,
               c := bytes.getD 19 0,
               mem := fun a => bytes.getD (27 + a) 0,
               stop := 0 }
      else none
    else none
  else none

/-! ## Breakpoint resolver (`find_break_addr`, `has_any_mapping_for_line`) -/

/-- One record of the loaded `.deb` map (`struct DebLine`). -/
structure DebLine where
  addr : Nat
  is_code : Bool
  file : List Char
  line_no : Int

/-- `fs::path::filename` on a POSIX path string: the component after the
last separator. -/
def filenameOf (s : List Char) : List Char :=
  ((s.reverse.takeWhile (fun ch => ch ≠ '/')).reverse)

/-- The match test used by both resolver functions: exact path equality or,
as a fallback, basename equality against the requested basename. -/
def fileMatches (recFile breakFile : List Char) : Bool :=
  recFile = breakFile || filenameOf recFile = filenameOf breakFile

/-- The loop body of `find_break_addr`: carries the `found` flag and the
best (smallest) address so far, initialized to `(false, 0xFFFF)`. -/
def findBreakStep (breakFile : List Char) (breakLine : Int)
    (acc : Bool × Nat) (l : DebLine) : Bool × Nat :=
  if !l.is_code then acc
  else if l.line_no ≠ breakLine then acc
  else if !fileMatches l.file breakFile then acc
  else if !acc.1 || l.addr < acc.2 then (true, l.addr)
  else acc

/-- `find_break_addr`: smallest address of a matching CODE record. -/
def find_break_addr (lines : List DebLine) (breakFile : List Char)
    (breakLine : Int) : Option Nat :=
  let res := lines.foldl (findBreakStep breakFile breakLine) (false, 0xFFFF)
  if res.1 then some res.2 else none

/-- `has_any_mapping_for_line`: does any record (code or data) match? -/
def has_any_mapping_for_line (lines : List DebLine) (breakFile : List Char)
    (breakLine : Int) : Bool :=
  lines.any fun l => l.line_no = breakLine && fileMatches l.file breakFile

/-- The two breakpoint-resolution errors distinguished in `main`. -/
inductive BreakErr where
  | noExecutableOnLine
  | breakpointNotFound
deriving DecidableEq

/-- The breakpoint-resolution logic of `main`: `find_break_addr`, falling
back to `has_any_mapping_for_line` to pick the error message. -/
def resolve_breakpoint (lines : List DebLine) (breakFile : List Char)
    (breakLine : Int) : Except BreakErr Nat :=
  match find_break_addr lines breakFile breakLine with
  | some a => .ok a
  | none =>
    if has_any_mapping_for_line lines breakFile breakLine then
      .error .noExecutableOnLine
    else
      .error .breakpointNotFound

/-! ## Assembler (`s8asm.cpp`)

Lines of the preprocessed source are modelled as `List Char`; the
assembler maps the flat line stream to a full `MEM_SIZE`-byte image.
All string handling mirrors the C++ (C-locale `isspace`, `trim`,
`split_operands`, `std::stoul`-based literal parsing). -/

/-- C-locale `isspace`. -/
def isSpaceC (ch : Char) : Bool :=
  ch == ' ' || ch == '\t' || ch == '\n' || ch == '\x0b' || ch == '\x0c' || ch == '\r'

/-- C-locale `isalpha` (ASCII). -/
def isAlphaC (ch : Char) : Bool :=
  decide ((65 ≤ ch.toNat ∧ ch.toNat ≤ 90) ∨ (97 ≤ ch.toNat ∧ ch.toNat ≤ 122))

/-- C-locale `isalnum` (ASCII). -/
def isAlnumC (ch : Char) : Bool :=
  isAlphaC ch || decide (48 ≤ ch.toNat ∧ ch.toNat ≤ 57)

/-- `trim`: strip whitespace from both ends. -/
def trim (s : List Char) : List Char :=
  ((s.dropWhile isSpaceC).reverse.dropWhile isSpaceC).reverse

/-- The accumulator loop of `split_operands`: `cur` holds the pending token
reversed (`push_back`). -/
def split_operands_go (cur : List Char) : List Char → List (List Char)
  | [] =>
    let t := trim cur.reverse
    if t.isEmpty then [] else [t]
  | ch :: rest =>
    if ch = ',' then
      let t := trim cur.reverse
      (if t.isEmpty then [] else [t]) ++ split_operands_go [] rest
    else split_operands_go (ch :: cur) rest

/-- `split_operands`: comma-split, with every empty (trimmed) token
dropped. -/
def split_operands (s : List Char) : List (List Char) :=
  split_operands_go [] s

/-- `is_ident`: leading letter or underscore, then alphanumerics or
underscores. -/
def is_ident (s : List Char) : Bool :=
  match s with
  | [] => false
  | c0 :: rest =>
    (isAlphaC c0 || c0 == '_') && rest.all (fun ch => isAlnumC ch || ch == '_')

/-- `is_hex_digit`. -/
def is_hex_digit (ch : Char) : Bool :=
  decide ((48 ≤ ch.toNat ∧ ch.toNat ≤ 57) ∨ (97 ≤ ch.toNat ∧ ch.toNat ≤ 102) ∨
          (65 ≤ ch.toNat ∧ ch.toNat ≤ 70))

/-- `hex_val`. -/
def hex_val (ch : Char) : Nat :=
  if 48 ≤ ch.toNat ∧ ch.toNat ≤ 57 then ch.toNat - 48
  else if 97 ≤ ch.toNat ∧ ch.toNat ≤ 102 then 10 + (ch.toNat - 97)
  else 10 + (ch.toNat - 65)

/-- Digit value of a character in the given base (as `strtoul` accepts:
`0-9`, `a-z`, `A-Z`). -/
def digitValC (base : Nat) (ch : Char) : Option Nat :=
  let v :=
    if 48 ≤ ch.toNat ∧ ch.toNat ≤ 57 then some (ch.toNat - 48)
    else if 97 ≤ ch.toNat ∧ ch.toNat ≤ 122 then some (ch.toNat - 87)
    else if 65 ≤ ch.toNat ∧ ch.toNat ≤ 90 then some (ch.toNat - 55)
    else none
  match v with
  | some d => if d < base then some d else none
  | none => none

/-- Maximal prefix of digits valid in the given base. -/
def takeDigits (base : Nat) : List Char → List Nat
  | [] => []
  | ch :: rest =>
    match digitValC base ch with
    | some d => d :: takeDigits base rest
    | none => []

/-- `strtoul` base-16 handling of an optional `0x` preamble (consumed only
when followed by a hex digit). -/
def stripHexPreamble (base : Nat) (s : List Char) : List Char :=
  if base = 16 then
    match s with
    | '0' :: x :: rest =>
      if (x == 'x' || x == 'X') &&
         (match rest with | r0 :: _ => (digitValC 16 r0).isSome | [] => false) then rest
      else '0' :: x :: rest
    | s0 => s0
  else s

/-- Core of the `std::stoul` model: parse the digit run, fail when no digit
was consumed (`invalid_argument`) or when the value exceeds the 64-bit
`unsigned long` range (`out_of_range`); a leading minus sign wraps. -/
def stoulCore (base : Nat) (neg : Bool) (s : List Char) : Option Nat :=
  let ds := takeDigits base (stripHexPreamble base s)
  if ds.isEmpty then none
  else
    let v := ds.foldl (fun acc d => acc * base + d) 0
    if v < 2 ^ 64 then some (if neg then (2 ^ 64 - v) % 2 ^ 64 else v)
    else none

/-- Model of `std::stoul(s, nullptr, base)`: skip leading whitespace,
optional sign, then digits. -/
def stoulModel (base : Nat) (s : List Char) : Option Nat :=
  match s.dropWhile isSpaceC with
  | '-' :: rest => stoulCore base true rest
  | '+' :: rest => stoulCore base false rest
  | s1 => stoulCore base false s1

/-- `parse_int_literal`: `0x..` hex, `0b..` binary, else decimal; the
result is the `uint32_t` truncation of the `stoul` value. -/
def parse_int_literal (s : List Char) : Option Nat :=
  match s with
  | '0' :: x :: rest =>
    if x == 'x' || x == 'X' then (stoulModel 16 rest).map (fun v => v % 2 ^ 32)
    else if x == 'b' || x == 'B' then (stoulModel 2 rest).map (fun v => v % 2 ^ 32)
    else (stoulModel 10 ('0' :: x :: rest)).map (fun v => v % 2 ^ 32)
  | s0 => (stoulModel 10 s0).map (fun v => v % 2 ^ 32)

/-- The `OPC` table. -/
def OPC (name : List Char) : Option Nat :=
  if name = "HALT".toList then some 0x00
  else if name = "LOAD".toList then some 0x01
  else if name = "STORE".toList then some 0x02
  else if name = "STORER".toList then some 0x03
  else if name = "LOADR".toList then some 0x1C
  else if name = "SET".toList then some 0x04
  else if name = "INC".toList then some 0x05
  else if name = "DEC".toList then some 0x06
  else if name = "JMP".toList then some 0x07
  else if name = "CMP".toList then some 0x08
  else if name = "CMPR".toList then some 0x09
  else if name = "JZ".toList then some 0x0A
  else if name = "JNZ".toList then some 0x0B
  else if name = "JC".toList then some 0x0C
  else if name = "JNC".toList then some 0x0D
  else if name = "ADD".toList then some 0x0E
  else if name = "ADDR".toList then some 0x0F
  else if name = "PUSH".toList then some 0x10
  else if name = "POP".toList then some 0x11
  else if name = "CALL".toList then some 0x12
  else if name = "RET".toList then some 0x13
  else if name = "SUB".toList then some 0x14
  else if name = "SUBR".toList then some 0x15
  else if name = "MUL".toList then some 0x16
  else if name = "MULR".toList then some 0x17
  else if name = "DIV".toList then some 0x18
  else if name = "DIVR".toList then some 0x19
  else if name = "SHL".toList then some 0x1A
  else if name = "SHR".toList then some 0x1B
  else if name = "NOP".toList then some 0xFF
  else none

/-- The `ILEN` table. -/
def ILEN (name : List Char) : Option Nat :=
  if name = "HALT".toList ∨ name = "NOP".toList ∨ name = "RET".toList then some 1
  else if name = "INC".toList ∨ name = "DEC".toList ∨ name = "PUSH".toList ∨
          name = "POP".toList then some 2
  else if name = "JMP".toList ∨ name = "CALL".toList ∨ name = "JC".toList ∨
          name = "JNC".toList ∨ name = "SET".toList ∨ name = "ADD".toList ∨
          name = "SUB".toList ∨ name = "CMP".toList ∨ name = "CMPR".toList ∨
          name = "ADDR".toList ∨ name = "SUBR".toList ∨ name = "SHL".toList ∨
          name = "SHR".toList then some 3
  else if name = "LOAD".toList ∨ name = "STORE".toList ∨ name = "STORER".toList ∨
          name = "LOADR".toList ∨ name = "JZ".toList ∨ name = "JNZ".toList ∨
          name = "MUL".toList ∨ name = "MULR".toList ∨ name = "DIV".toList ∨
          name = "DIVR".toList then some 4
  else none

/-- Arity per the `SPECS` operand-signature table. -/
def SPECS_arity (name : List Char) : Option Nat :=
  if name = "RET".toList ∨ name = "NOP".toList ∨ name = "HALT".toList then some 0
  else if name = "INC".toList ∨ name = "DEC".toList ∨ name = "JMP".toList ∨
          name = "CALL".toList ∨ name = "JC".toList ∨ name = "JNC".toList ∨
          name = "PUSH".toList ∨ name = "POP".toList then some 1
  else if name = "LOAD".toList ∨ name = "STORE".toList ∨ name = "SET".toList ∨
          name = "JZ".toList ∨ name = "JNZ".toList ∨ name = "CMP".toList ∨
          name = "CMPR".toList ∨ name = "ADD".toList ∨ name = "ADDR".toList ∨
          name = "SUB".toList ∨ name = "SUBR".toList ∨ name = "SHL".toList ∨
          name = "SHR".toList then some 2
  else if name = "STORER".toList ∨ name = "LOADR".toList ∨ name = "MUL".toList ∨
          name = "MULR".toList ∨ name = "DIV".toList ∨ name = "DIVR".toList then some 3
  else none

/-- The `REGTOK` table. -/
def REGTOK (tok : List Char) : Option Nat :=
  if tok = "R0".toList then some 0xF2
  else if tok = "R1".toList then some 0xF3
  else if tok = "R2".toList then some 0xF4
  else if tok = "R3".toList then some 0xF5
  else if tok = "R4".toList then some 0xF6
  else if tok = "R5".toList then some 0xF7
  else if tok = "R6".toList then some 0xF8
  else if tok = "R7".toList then some 0xF9
  else if tok = "IP".toList then some 0xFA
  else if tok = "SP".toList then some 0xFB
  else if tok = "BP".toList then some 0xFC
  else none

/-- `is_gpr`. -/
def is_gpr (s : List Char) : Bool :=
  match s with
  | [a, b] => a == 'R' && decide (48 ≤ b.toNat ∧ b.toNat ≤ 55)
  | _ => false

/-- Operand kinds of the `SPECS` table. -/
inductive OpKind where
  | addr16
  | imm8
  | gpr
  | anyReg
deriving DecidableEq

/-- `resolve_addr16`. -/
def resolve_addr16 (sym : List (List Char × Nat)) (tok : List Char) :
    Except String Nat :=
  if tok.isEmpty then .error "Empty address operand"
  else if tok.headD ' ' == '#' then .error "Address operand must not start with hash"
  else if is_ident tok then
    match sym.lookup tok with
    | some v => .ok (v % 65536)
    | none => .error "Undefined label"
  else
    match parse_int_literal tok with
    | none => .error "Invalid address literal"
    | some v => if v ≤ 0xFFFF then .ok v else .error "Address literal out of 16-bit range"

/-- `resolve_imm8`. -/
def resolve_imm8 (tok : List Char) : Except String Nat :=
  if tok.isEmpty then .error "Empty immediate operand"
  else if ¬ (tok.headD ' ' == '#') then .error "Immediate operand must start with hash"
  else
    match parse_int_literal (tok.drop 1) with
    | none => .error "Invalid immediate literal"
    | some v => if v ≤ 0xFF then .ok v else .error "Immediate out of 8-bit range"

/-- `resolve_reg`. -/
def resolve_reg (tok : List Char) (kind : OpKind) : Except String Nat :=
  match REGTOK tok with
  | none => .error "Invalid register"
  | some b =>
    if kind = OpKind.gpr then
      if is_gpr tok then .ok b else .error "Register not allowed here"
    else .ok b

/-- The escape-decoding loop of `decode_c_string` over the characters
between the quotes. -/
def decodeChars : List Char → Except String (List Nat)
  | [] => .ok []
  | '\\' :: rest =>
    match rest with
    | [] => .error "Invalid escape at end of string"
    | n :: rest1 =>
      if n = '\\' then (decodeChars rest1).map (fun bs => 92 :: bs)
      else if n = '"' then (decodeChars rest1).map (fun bs => 34 :: bs)
      else if n = 'n' then (decodeChars rest1).map (fun bs => 0x0A :: bs)
      else if n = 'r' then (decodeChars rest1).map (fun bs => 0x0D :: bs)
      else if n = 't' then (decodeChars rest1).map (fun bs => 0x09 :: bs)
      else if n = '0' then (decodeChars rest1).map (fun bs => 0x00 :: bs)
      else if n = 'x' then
        match rest1 with
        | h1 :: h2 :: rest2 =>
          if is_hex_digit h1 && is_hex_digit h2 then
            (decodeChars rest2).map (fun bs => (hex_val h1 * 16 + hex_val h2) :: bs)
          else .error "Invalid hex escape(non-hex digit)"
        | _ => .error "Invalid hex escape(needs two hex digits)"
      else .error "Unknown escape sequence"
  | c :: rest =>
    if c.toNat > 0x7F then .error "Non-ASCII character in .string"
    else (decodeChars rest).map (fun bs => c.toNat :: bs)

/-- `decode_c_string`: the operand must be fully quoted; afterwards every
decoded byte (including `\xHH` results) must be 7-bit ASCII. -/
def decode_c_string (quoted : List Char) : Except String (List Nat) :=
  if quoted.length < 2 ∨ ¬ (quoted.headD ' ' == '"') ∨
     ¬ (quoted.getLastD ' ' == '"') then
    .error "Invalid .string syntax"
  else
    match decodeChars (quoted.dropLast.drop 1) with
    | .error e => .error e
    | .ok bytes =>
      if bytes.any (fun b => b > 0x7F) then
        .error "Non-ASCII byte in .string"
      else .ok bytes

/-- Pass-1 layout record (`struct Item`). -/
inductive ItemKind where
  | dir
  | ins
deriving DecidableEq

structure Item where
  kind : ItemKind
  name : List Char
  ops : List (List Char)
  addr : Nat
  size : Nat

/-- Pass-1 running state. -/
structure P1State where
  sym : List (List Char × Nat)
  lc : Nat
  anyOrg : Bool
  entryMarkAddr : Option Nat
  firstOrgAddr : Option Nat

def initP1 : P1State := ⟨[], 0x0003, false, none, none⟩

/-- The label-peeling loop at the head of every pass-1 line: repeatedly
strip a leading `IDENT:`, binding each label to the current location
counter; duplicates are fatal.  The `fuel` argument only bounds the loop:
each iteration strictly shortens `code` (at least the `:` is consumed), so
the `code.length + 1` that `pass1Line` passes can never be exhausted. -/
def peelLabels (lc : Nat) :
    Nat → List (List Char × Nat) → List Char →
    Except String (List (List Char × Nat) × List Char)
  | 0, sym, code => .ok (sym, code)
  | fuel + 1, sym, code =>
    let before := code.takeWhile (fun ch => ch ≠ ':')
    let rest := code.dropWhile (fun ch => ch ≠ ':')
    match rest with
    | [] => .ok (sym, code)
    | _ :: after =>
      let lab := trim before
      if is_ident lab then
        if (sym.lookup lab).isSome then .error "Duplicate label"
        else
          let code2 := trim after
          if code2.isEmpty then .ok ((lab, lc) :: sym, code2)
          else peelLabels lc fuel ((lab, lc) :: sym) code2
      else .ok (sym, code)

/-- The end-of-line check `require(lc <= MEM_SIZE)`. -/
def checkLcEnd (st : P1State) (items : List Item) :
    Except String (P1State × List Item) :=
  if st.lc ≤ MEM_SIZE then .ok (st, items)
  else .error "Assembly exceeds MEM_SIZE"

/-- The `.org` directive in pass 1 (the caller has already set `anyOrg`):
without operand it records the entry marker at the current location
counter; with a numeric operand it range-checks the address, records the
first such address and moves the location counter there. -/
def pass1Org (st : P1State) (dname : List Char) (ops : List (List Char)) :
    Except String (P1State × List Item) :=
  if ops.isEmpty then
    if st.entryMarkAddr.isSome then .error "org no-operand may appear only once"
    else
      checkLcEnd { st with entryMarkAddr := some st.lc }
        [⟨ItemKind.dir, dname, ops, st.lc, 0⟩]
  else
    if ops.length ≠ 1 then .error "org expects 0 or 1 operand"
    else if ¬ ((ops.headD []).length > 0 ∧ ¬ ((ops.headD []).headD ' ' == '#')) then
      .error "org operand must not use hash"
    else if is_ident (ops.headD []) then .error "org operand must be a numeric literal"
    else
      match parse_int_literal (ops.headD []) with
      | none => .error "Invalid org address literal"
      | some addr =>
        if ¬ (addr ≤ 0xFFFF) then .error "org out of 16-bit range"
        else if ¬ (0x0003 ≤ addr) then .error "org must be at least 3"
        else
          let st := { st with
                      firstOrgAddr :=
                        if st.firstOrgAddr.isSome then st.firstOrgAddr else some addr,
                      lc := addr }
          checkLcEnd st [⟨ItemKind.dir, dname, ops, addr, 0⟩]

/-- The `.string` directive in pass 1: reserves the decoded bytes plus a
NUL terminator. -/
def pass1String (st : P1State) (dname rest : List Char) :
    Except String (P1State × List Item) :=
  if rest.isEmpty then .error "string expects a quoted operand"
  else
    match decode_c_string rest with
    | .error e => .error e
    | .ok bytes =>
      checkLcEnd { st with lc := st.lc + (bytes.length + 1) }
        [⟨ItemKind.dir, dname, [rest], st.lc, bytes.length + 1⟩]

/-- The `.byte` directive in pass 1: one byte per operand. -/
def pass1ByteDir (st : P1State) (dname : List Char) (ops : List (List Char)) :
    Except String (P1State × List Item) :=
  if ops.isEmpty then .error "byte requires at least 1 operand"
  else
    checkLcEnd { st with lc := st.lc + ops.length }
      [⟨ItemKind.dir, dname, ops, st.lc, ops.length⟩]

/-- The `.word` directive in pass 1: two bytes per operand. -/
def pass1WordDir (st : P1State) (dname : List Char) (ops : List (List Char)) :
    Except String (P1State × List Item) :=
  if ops.isEmpty then .error "word requires at least 1 operand"
  else
    checkLcEnd { st with lc := st.lc + ops.length * 2 }
      [⟨ItemKind.dir, dname, ops, st.lc, ops.length * 2⟩]

/-- Dispatch of a directive line to its handler. -/
def pass1Dir (st : P1State) (code : List Char) :
    Except String (P1State × List Item) :=
  let dname := code.takeWhile (fun ch => ¬ isSpaceC ch)
  let rest := trim (code.dropWhile (fun ch => ¬ isSpaceC ch))
  let ops := split_operands rest
  if dname = ".org".toList then pass1Org { st with anyOrg := true } dname ops
  else if dname = ".string".toList then pass1String st dname rest
  else if dname = ".byte".toList then pass1ByteDir st dname ops
  else if dname = ".word".toList then pass1WordDir st dname ops
  else if dname = ".include".toList then
    .error "Unexpected include after preprocessing"
  else .error "Unknown directive"

/-- Layout of one instruction line: mnemonic lookup, arity check, size
lookup. -/
def pass1Ins (st : P1State) (code : List Char) :
    Except String (P1State × List Item) :=
  let mnem := code.takeWhile (fun ch => ¬ isSpaceC ch)
  let rest := trim (code.dropWhile (fun ch => ¬ isSpaceC ch))
  match SPECS_arity mnem with
  | none => .error "Unknown instruction"
  | some ar =>
    let ops := split_operands rest
    if ops.length ≠ ar then .error "operand count mismatch"
    else
      match ILEN mnem with
      | none => .error "No length for instruction"
      | some sz =>
        checkLcEnd { st with lc := st.lc + sz }
          [⟨ItemKind.ins, mnem, ops, st.lc, sz⟩]

/-- One iteration of the pass-1 loop: comment stripping, label peeling,
directive or instruction layout. -/
def pass1Line (st0 : P1State) (line : List Char) :
    Except String (P1State × List Item) :=
  let code0 := trim (line.takeWhile (fun ch => ch ≠ ';'))
  if code0.isEmpty then .ok (st0, [])
  else
    match peelLabels st0.lc (code0.length + 1) st0.sym code0 with
    | .error e => .error e
    | .ok (sym1, code) =>
      let st := { st0 with sym := sym1 }
      if code.isEmpty then .ok (st, [])
      else if code.headD ' ' == '.' then pass1Dir st code
      else pass1Ins st code

/-- The pass-1 loop over all source lines. -/
def pass1Lines (st : P1State) : List (List Char) → Except String (P1State × List Item)
  | [] => .ok (st, [])
  | line :: rest =>
    match pass1Line st line with
    | .error e => .error e
    | .ok (st1, its) =>
      match pass1Lines st1 rest with
      | .error e => .error e
      | .ok (st2, more) => .ok (st2, its ++ more)

/-- Result of pass 1: items, symbol table, and the entry determination. -/
structure Pass1Out where
  items : List Item
  sym : List (List Char × Nat)
  entry : Nat
  entryMarkAddr : Option Nat
  firstOrgAddr : Option Nat

/-- Pass 1: the entry is the entry marker's location counter if present,
otherwise the first numeric `.org` address; at least one `.org` of either
form is mandatory. -/
def pass1 (src : List (List Char)) : Except String Pass1Out :=
  match pass1Lines initP1 src with
  | .error e => .error e
  | .ok (st, items) =>
    if ¬ st.anyOrg then .error "No org found"
    else
      match st.entryMarkAddr with
      | some e => .ok ⟨items, st.sym, e, st.entryMarkAddr, st.firstOrgAddr⟩
      | none =>
        match st.firstOrgAddr with
        | some a => .ok ⟨items, st.sym, a, st.entryMarkAddr, st.firstOrgAddr⟩
        | none => .error "No org addr found and no entry marker present"

/-- `emit_byte`: the only way pass 2 writes the image: the address must be
in range and unoccupied; the occupancy bit is then set. -/
def emit_byte (img used : List Nat) (addr val : Nat) :
    Except String (List Nat × List Nat) :=
  if ¬ (addr < MEM_SIZE) then .error "Emit address out of range"
  else if ¬ (used.getD addr 0 = 0) then .error "Overlap"
  else .ok (img.set addr val, used.set addr 1)

/-- Sequential emission of a byte span (`span` + consecutive `emit_byte`
calls with a moving cursor). -/
def emitList (img used : List Nat) (addr : Nat) :
    List Nat → Except String (List Nat × List Nat)
  | [] => .ok (img, used)
  | b :: rest =>
    match emit_byte img used addr b with
    | .error e => .error e
    | .ok (i1, u1) => emitList i1 u1 (addr + 1) rest

/-- The `.byte` emission loop: per element, validate then emit. -/
def emitByteOps (img used : List Nat) (addr : Nat) :
    List (List Char) → Except String (List Nat × List Nat)
  | [] => .ok (img, used)
  | op :: rest =>
    if op.isEmpty then .error "byte empty operand"
    else if op.headD ' ' == '#' then .error "byte elements must not use hash"
    else if is_ident op then .error "byte does not allow labels"
    else
      match parse_int_literal op with
      | none => .error "Invalid byte literal"
      | some v =>
        if ¬ (v ≤ 0xFF) then .error "byte value out of 8-bit range"
        else
          match emit_byte img used addr v with
          | .error e => .error e
          | .ok (i1, u1) => emitByteOps i1 u1 (addr + 1) rest

/-- The `.word` emission loop: per token, resolve (label or literal) then
emit big-endian (`emit_u16be`). -/
def emitWordOps (sym : List (List Char × Nat)) (img used : List Nat) (addr : Nat) :
    List (List Char) → Except String (List Nat × List Nat)
  | [] => .ok (img, used)
  | op :: rest =>
    if op.isEmpty then .error "word empty operand"
    else if op.headD ' ' == '#' then .error "word elements must not use hash"
    else
      let v? : Except String Nat :=
        if is_ident op then
          match sym.lookup op with
          | some s => .ok (s % 65536)
          | none => .error "Undefined label"
        else
          match parse_int_literal op with
          | none => .error "Invalid word literal"
          | some v => if v ≤ 0xFFFF then .ok v else .error "word value out of 16-bit range"
      match v? with
      | .error e => .error e
      | .ok v =>
        match emit_byte img used addr (v / 256 % 256) with
        | .error e => .error e
        | .ok (i1, u1) =>
          match emit_byte i1 u1 (addr + 1) (v % 256) with
          | .error e => .error e
          | .ok (i2, u2) => emitWordOps sym i2 u2 (addr + 2) rest

/-- Operand bytes of one instruction, resolved in the order of the source
branch for its mnemonic (all resolutions in each branch happen before its
operand emissions, so the bytes can be collected first). -/
def insOperands (sym : List (List Char × Nat)) (name : List Char)
    (ops : List (List Char)) : Except String (List Nat) :=
  if name = "STORE".toList then do
    let r ← resolve_reg (ops.getD 0 []) OpKind.gpr
    let a ← resolve_addr16 sym (ops.getD 1 [])
    pure [r, a / 256 % 256, a % 256]
  else if name = "LOAD".toList then do
    let a ← resolve_addr16 sym (ops.getD 0 [])
    let r ← resolve_reg (ops.getD 1 []) OpKind.gpr
    pure [a / 256 % 256, a % 256, r]
  else if name = "JMP".toList ∨ name = "CALL".toList ∨ name = "JC".toList ∨
          name = "JNC".toList then do
    let a ← resolve_addr16 sym (ops.getD 0 [])
    pure [a / 256 % 256, a % 256]
  else if name = "JZ".toList ∨ name = "JNZ".toList then do
    let r ← resolve_reg (ops.getD 0 []) OpKind.gpr
    let a ← resolve_addr16 sym (ops.getD 1 [])
    pure [r, a / 256 % 256, a % 256]
  else if name = "SET".toList ∨ name = "ADD".toList ∨ name = "SUB".toList ∨
          name = "SHL".toList ∨ name = "SHR".toList then do
    let imm ← resolve_imm8 (ops.getD 0 [])
    let r ← resolve_reg (ops.getD 1 []) OpKind.gpr
    pure [imm, r]
  else if name = "CMP".toList then do
    let r ← resolve_reg (ops.getD 0 []) OpKind.gpr
    let imm ← resolve_imm8 (ops.getD 1 [])
    pure [r, imm]
  else if name = "INC".toList ∨ name = "DEC".toList then do
    let r ← resolve_reg (ops.getD 0 []) OpKind.gpr
    pure [r]
  else if name = "CMPR".toList ∨ name = "ADDR".toList ∨ name = "SUBR".toList then do
    let r0 ← resolve_reg (ops.getD 0 []) OpKind.gpr
    let r1 ← resolve_reg (ops.getD 1 []) OpKind.gpr
    pure [r0, r1]
  else if name = "LOADR".toList ∨ name = "STORER".toList then do
    let ra ← resolve_reg (ops.getD 0 []) OpKind.gpr
    let rb ← resolve_reg (ops.getD 1 []) OpKind.gpr
    let rc ← resolve_reg (ops.getD 2 []) OpKind.gpr
    pure [ra, rb, rc]
  else if name = "MUL".toList ∨ name = "DIV".toList then do
    let imm ← resolve_imm8 (ops.getD 0 [])
    let r1 ← resolve_reg (ops.getD 1 []) OpKind.gpr
    let r2 ← resolve_reg (ops.getD 2 []) OpKind.gpr
    pure [imm, r1, r2]
  else if name = "MULR".toList ∨ name = "DIVR".toList then do
    let rsrc ← resolve_reg (ops.getD 0 []) OpKind.gpr
    let r1 ← resolve_reg (ops.getD 1 []) OpKind.gpr
    let r2 ← resolve_reg (ops.getD 2 []) OpKind.gpr
    pure [rsrc, r1, r2]
  else if name = "PUSH".toList ∨ name = "POP".toList then do
    let r ← resolve_reg (ops.getD 0 []) OpKind.anyReg
    pure [r]
  else if name = "NOP".toList ∨ name = "HALT".toList ∨ name = "RET".toList then
    pure []
  else .error "Encoding not implemented"

/-- Instruction emission: opcode byte first (as in the source), then the
resolved operand bytes. -/
def emitIns (sym : List (List Char × Nat)) (img used : List Nat) (it : Item) :
    Except String (List Nat × List Nat) :=
  match OPC it.name with
  | none => .error "Unknown opcode"
  | some opc =>
    match emit_byte img used it.addr opc with
    | .error e => .error e
    | .ok (i1, u1) =>
      match insOperands sym it.name it.ops with
      | .error e => .error e
      | .ok bytes => emitList i1 u1 (it.addr + 1) bytes

/-- Pass-2 emission of one item. -/
def emitItem (sym : List (List Char × Nat)) (img used : List Nat) (it : Item) :
    Except String (List Nat × List Nat) :=
  match it.kind with
  | ItemKind.dir =>
    if it.name = ".org".toList then .ok (img, used)
    else if it.name = ".byte".toList then emitByteOps img used it.addr it.ops
    else if it.name = ".string".toList then
      if it.ops.length ≠ 1 then .error "string expects exactly 1 operand"
      else
        match decode_c_string (it.ops.headD []) with
        | .error e => .error e
        | .ok bytes => emitList img used it.addr (bytes ++ [0])
    else if it.name = ".word".toList then emitWordOps sym img used it.addr it.ops
    else .ok (img, used)
  | ItemKind.ins => emitIns sym img used it

/-- The pass-2 loop over all items. -/
def emitItems (sym : List (List Char × Nat)) (img used : List Nat) :
    List Item → Except String (List Nat × List Nat)
  | [] => .ok (img, used)
  | it :: rest =>
    match emitItem sym img used it with
    | .error e => .error e
    | .ok (i1, u1) => emitItems sym i1 u1 rest

/-- The zero-filled image. -/
def initImg : List Nat := List.replicate MEM_SIZE 0

/-- The occupancy bitmap with `0x0000..0x0002` pre-marked for the entry
stub. -/
def initUsed : List Nat :=
  (((List.replicate MEM_SIZE 0).set 0 1).set 1 1).set 2 1

/-- Pass 2 plus the final implicit entry stub `JMP <entry>` written
directly at `0x0000..0x0002`. -/
def pass2 (p : Pass1Out) : Except String (List Nat) :=
  match emitItems p.sym initImg initUsed p.items with
  | .error e => .error e
  | .ok (img, _) =>
    .ok (((img.set 0 0x07).set 1 (p.entry / 256 % 256)).set 2 (p.entry % 256))

/-- `assemble`: pass 1 then pass 2. -/
def assemble (src : List (List Char)) : Except String (List Nat) :=
  match pass1 src with
  | .error e => .error e
  | .ok p => pass2 p

/-! ## Shared helper lemmas about the VM -/

theorem gprIndex?_reg : ∀ n : Fin 8, gprIndex? (0xF2 + n.val) = some n := by decide

theorem dispatch_pop (m : Machine) (hop : m.mem m.ip = 0x11) :
    process_instruction m = pop_instruction m := by
  unfold process_instruction; rw [hop]; norm_num

theorem dispatch_push (m : Machine) (hop : m.mem m.ip = 0x10) :
    process_instruction m = push_instruction m := by
  unfold process_instruction; rw [hop]; norm_num

theorem dispatch_shr (m : Machine) (hop : m.mem m.ip = 0x1B) :
    process_instruction m = shrInstruction m := by
  unfold process_instruction; rw [hop]; norm_num

theorem dispatch_shl (m : Machine) (hop : m.mem m.ip = 0x1A) :
    process_instruction m = shl_instruction m := by
  unfold process_instruction; rw [hop]; norm_num

theorem dispatch_cmp (m : Machine) (hop : m.mem m.ip = 0x08) :
    process_instruction m = cmp_instruction m := by
  unfold process_instruction; rw [hop]; norm_num

theorem dispatch_cmpr (m : Machine) (hop : m.mem m.ip = 0x09) :
    process_instruction m = cmpr_instruction m := by
  unfold process_instruction; rw [hop]; norm_num

theorem dispatch_store (m : Machine) (hop : m.mem m.ip = 0x02) :
    process_instruction m = store_instruction m := by
  unfold process_instruction; rw [hop]; norm_num

theorem dispatch_load (m : Machine) (hop : m.mem m.ip = 0x01) :
    process_instruction m = load_instruction m := by
  unfold process_instruction; rw [hop]; norm_num

theorem dispatch_loadr (m : Machine) (hop : m.mem m.ip = 0x1C) :
    process_instruction m = loadr_instruction m := by
  unfold process_instruction; rw [hop]; norm_num

theorem dispatch_storer (m : Machine) (hop : m.mem m.ip = 0x03) :
    process_instruction m = storer_instruction m := by
  unfold process_instruction; rw [hop]; norm_num

theorem dispatch_set (m : Machine) (hop : m.mem m.ip = 0x04) :
    process_instruction m = set_instruction m := by
  unfold process_instruction; rw [hop]; norm_num

theorem dispatch_call (m : Machine) (hop : m.mem m.ip = 0x12) :
    process_instruction m = call_instruction m := by
  unfold process_instruction; rw [hop]; norm_num

theorem dispatch_ret (m : Machine) (hop : m.mem m.ip = 0x13) :
    process_instruction m = ret_instruction m := by
  unfold process_instruction; rw [hop]; norm_num

theorem shr_spec (m : Machine) (n : Fin 8) (cnt : Nat) (h8 : cnt ≤ 8)
    (hcnt : m.mem (m.ip + 1) = cnt) (hreg : m.mem (m.ip + 2) = 0xF2 + n.val)
    (hr : m.r n < 256) :
    (shrInstruction m).r n = m.r n >>> cnt ∧
    (shrInstruction m).c = (m.r n >>> (cnt - 1)) % 2 := by
  have hc : cnt % 256 = cnt := Nat.mod_eq_of_lt (by omega)
  have hle : m.r n >>> cnt ≤ m.r n := by
    rw [Nat.shiftRight_eq_div_pow]; exact Nat.div_le_self _ _
  simp only [shrInstruction, hcnt, hreg, gprIndex?_reg, hc, updR, if_pos rfl]
  constructor
  · exact Nat.mod_eq_of_lt (by omega)
  · trivial

theorem shl_spec (m : Machine) (n : Fin 8) (cnt : Nat) (h8 : cnt ≤ 8)
    (hcnt : m.mem (m.ip + 1) = cnt) (hreg : m.mem (m.ip + 2) = 0xF2 + n.val) :
    (shl_instruction m).r n = (m.r n <<< cnt) % 256 ∧
    (shl_instruction m).c = if m.r n <<< (cnt - 1) > 127 then 1 else 0 := by
  have hc : cnt % 256 = cnt := Nat.mod_eq_of_lt (by omega)
  simp only [shl_instruction, hcnt, hreg, gprIndex?_reg, hc, updR, if_pos rfl]
  constructor <;> trivial

theorem cmp_spec (m : Machine) (n : Fin 8) (i : Nat)
    (hreg : m.mem (m.ip + 1) = 0xF2 + n.val) (himm : m.mem (m.ip + 2) = i)
    (hi : i < 256) :
    (cmp_instruction m).r n = (m.r n + 256 - i) % 256 ∧
    (cmp_instruction m).c = if m.r n < i then 1 else 0 := by
  simp only [cmp_instruction, hreg, himm, gprIndex?_reg, Nat.mod_eq_of_lt hi, updR,
    if_pos rfl]
  refine ⟨rfl, ?_⟩
  rcases Nat.lt_or_ge (m.r n) i with h | h
  · rw [if_neg (by omega), if_pos h]
  · rw [if_pos h, if_neg (by omega)]

theorem cmpr_spec (m : Machine) (n k : Fin 8)
    (hreg0 : m.mem (m.ip + 1) = 0xF2 + n.val) (hreg1 : m.mem (m.ip + 2) = 0xF2 + k.val)
    (hk : m.r k < 256) :
    (cmpr_instruction m).r n = (m.r n + 256 - m.r k) % 256 ∧
    (cmpr_instruction m).c = if m.r n < m.r k then 1 else 0 := by
  simp only [cmpr_instruction, hreg0, hreg1, gprIndex?_reg, Nat.mod_eq_of_lt hk, updR,
    if_pos rfl]
  refine ⟨rfl, ?_⟩
  rcases Nat.lt_or_ge (m.r n) (m.r k) with h | h
  · rw [if_neg (by omega), if_pos h]
  · rw [if_pos h, if_neg (by omega)]

theorem push_sp_spec (m : Machine) (hsrc : m.mem (m.ip + 1) = 0xFB)
    (hsp : 2 ≤ m.sp) (hsp2 : m.sp < 65536) :
    (push_instruction m).mem (m.sp - 2) = (m.sp - 1) / 256 ∧
    (push_instruction m).mem (m.sp - 1) = (m.sp - 1) % 256 ∧
    (push_instruction m).sp = m.sp - 2 := by
  have e1 : (m.sp + 65535) % 65536 = m.sp - 1 := by omega
  have e2 : (m.sp - 1) / 256 % 256 = (m.sp - 1) / 256 := Nat.mod_eq_of_lt (by omega)
  simp only [push_instruction, hsrc, IIP, ISP, e1, e2]
  norm_num
  unfold setMem
  refine ⟨?_, ?_, by omega⟩
  · rw [if_pos (by omega : m.sp - 2 = m.sp - 1 - 1)]
  · rw [if_neg (by omega : ¬ (m.sp - 1 = m.sp - 1 - 1)), if_pos rfl]

/-! ## C1: POP with the IP register token -/

/-- A machine about to execute `POP IP` (opcode 0x11, operand 0xFA) with
`0x1234` stored big-endian on top of the stack. -/
def c1cex : Machine :=
  { r := fun _ => 0
    ip := 0
    sp := 0x0100
    bp := 0
    c := 0
    mem := fun a =>
      if a = 0 then 0x11 else if a = 1 then 0xFA
      else if a = 0x0100 then 0x12 else if a = 0x0101 then 0x34 else 0
    stop := 0
    kbdQueued := none
    stdinBytes := []
    out := [] }

/-- C1 (counterexample): with `0x1234` on the stack, `POP IP` leaves
`IP = 0x1236`, not `0x1234`: the claim that IP is set to exactly the popped
big-endian value is false — the handler still adds the 2-byte instruction
length after the jump. -/
theorem c1_counterexample :
    c1cex.mem c1cex.sp * 256 + c1cex.mem (c1cex.sp + 1) = 0x1234 ∧
    (process_instruction c1cex).ip = 0x1236 ∧
    (process_instruction c1cex).ip ≠ c1cex.mem c1cex.sp * 256 + c1cex.mem (c1cex.sp + 1) := by
  decide

/-- C1 (amended): executing `POP` with the IP register token reads the
16-bit big-endian value `v` from `mem[SP..SP+1]`, sets `IP` to
`(v + 2) mod 2^16` (the regular two-byte advance runs after the load, so
the next instruction executed is at `v + 2`, not `v`), and adds 2 to `SP`
(mod 2^16). -/
theorem c1_pop_ip (m : Machine)
    (hop : m.mem m.ip = 0x11) (hsrc : m.mem (m.ip + 1) = 0xFA) :
    (process_instruction m).ip = (m.mem m.sp * 256 + m.mem (m.sp + 1) + 2) % 65536 ∧
    (process_instruction m).sp = (m.sp + 2) % 65536 := by
  rw [dispatch_pop m hop]
  simp only [pop_instruction, hsrc, IIP]
  norm_num

/-- C1 witness: the amended theorem evaluated on `c1cex`. -/
theorem c1_pop_ip_witness :
    (process_instruction c1cex).ip =
      (c1cex.mem c1cex.sp * 256 + c1cex.mem (c1cex.sp + 1) + 2) % 65536 ∧
    (process_instruction c1cex).sp = (c1cex.sp + 2) % 65536 :=
  c1_pop_ip c1cex (by decide) (by decide)

/-! ## C3: SHL / SHR semantics -/

/-- A machine about to execute `SHL #2, R0` with `R0 = 0x80`. -/
def c3cex : Machine :=
  { r := fun _ => 0x80
    ip := 0
    sp := 0
    bp := 0
    c := 0
    mem := fun a => if a = 0 then 0x1A else if a = 1 then 2 else if a = 2 then 0xF2 else 0
    stop := 0
    kbdQueued := none
    stdinBytes := []
    out := [] }

/-- C3 (counterexample): `SHL #2, R0` with `R0 = 0x80` sets carry to 1,
while the claimed formula `((x << (n-1)) >> 7) & 1` gives 0 (bit 7 of
`0x80 << 1 = 0x100` is clear).  The code's carry is `(x << (n-1)) > 127`,
which is also set when bits above position 7 are set. -/
theorem c3_counterexample :
    c3cex.r 0 = 0x80 ∧ c3cex.mem (c3cex.ip + 1) = 2 ∧
    (process_instruction c3cex).c = 1 ∧
    ((c3cex.r 0 <<< (2 - 1)) >>> 7) &&& 1 = 0 := by
  decide

/-- C3 (amended): for `1 ≤ n ≤ 8`, `SHR #n, Rn` sets `Rn` to `x >> n` and
carry to `(x >> (n-1)) & 1` as claimed; `SHL #n, Rn` sets `Rn` to
`(x << n) & 0xFF` as claimed, but its carry is `1` iff `(x << (n-1)) > 127`
(i.e. iff any bit at or above position 7 is set after shifting `n-1`
places), not just bit 7 itself. -/
theorem c3_shifts :
    (∀ (m : Machine) (n : Fin 8) (cnt : Nat), 1 ≤ cnt → cnt ≤ 8 →
      m.mem m.ip = 0x1B → m.mem (m.ip + 1) = cnt → m.mem (m.ip + 2) = 0xF2 + n.val →
      m.r n < 256 →
      (process_instruction m).r n = m.r n >>> cnt ∧
      (process_instruction m).c = (m.r n >>> (cnt - 1)) % 2) ∧
    (∀ (m : Machine) (n : Fin 8) (cnt : Nat), 1 ≤ cnt → cnt ≤ 8 →
      m.mem m.ip = 0x1A → m.mem (m.ip + 1) = cnt → m.mem (m.ip + 2) = 0xF2 + n.val →
      (process_instruction m).r n = (m.r n <<< cnt) % 256 ∧
      (process_instruction m).c = if m.r n <<< (cnt - 1) > 127 then 1 else 0) := by
  constructor
  · intro m n cnt h1 h8 hop hcnt hreg hr
    rw [dispatch_shr m hop]
    exact shr_spec m n cnt h8 hcnt hreg hr
  · intro m n cnt h1 h8 hop hcnt hreg
    rw [dispatch_shl m hop]
    exact shl_spec m n cnt h8 hcnt hreg

/-- C3 witness: the amended theorem's SHL part evaluated on `c3cex`. -/
theorem c3_shifts_witness :
    (process_instruction c3cex).r 0 = (c3cex.r 0 <<< 2) % 256 ∧
    (process_instruction c3cex).c = if c3cex.r 0 <<< (2 - 1) > 127 then 1 else 0 :=
  c3_shifts.2 c3cex 0 2 (by decide) (by decide) (by decide) (by decide) (by decide)

/-! ## C7: destructive CMP / CMPR -/

/-- C7: `CMP Rn, #i` sets `Rn` to `(x - i) mod 256` (written
`(x + 256 - i) % 256` for byte values) and carry to 1 iff `x < i`;
`CMPR Rn, Rm` does the same with `Rm`'s pre-value.  The compared register
is mutated in both cases. -/
theorem c7_destructive_compare :
    (∀ (m : Machine) (n : Fin 8) (i : Nat),
      m.mem m.ip = 0x08 → m.mem (m.ip + 1) = 0xF2 + n.val → m.mem (m.ip + 2) = i →
      i < 256 →
      (process_instruction m).r n = (m.r n + 256 - i) % 256 ∧
      (process_instruction m).c = if m.r n < i then 1 else 0) ∧
    (∀ (m : Machine) (n k : Fin 8),
      m.mem m.ip = 0x09 → m.mem (m.ip + 1) = 0xF2 + n.val →
      m.mem (m.ip + 2) = 0xF2 + k.val → m.r k < 256 →
      (process_instruction m).r n = (m.r n + 256 - m.r k) % 256 ∧
      (process_instruction m).c = if m.r n < m.r k then 1 else 0) := by
  constructor
  · intro m n i hop hreg himm hi
    rw [dispatch_cmp m hop]
    exact cmp_spec m n i hreg himm hi
  · intro m n k hop hreg0 hreg1 hk
    rw [dispatch_cmpr m hop]
    exact cmpr_spec m n k hreg0 hreg1 hk

/-- A machine about to execute `CMP R0, #7` with `R0 = 5`. -/
def c7wit : Machine :=
  { r := fun _ => 5
    ip := 0
    sp := 0
    bp := 0
    c := 0
    mem := fun a => if a = 0 then 0x08 else if a = 1 then 0xF2 else if a = 2 then 7 else 0
    stop := 0
    kbdQueued := none
    stdinBytes := []
    out := [] }

/-- C7 witness: the CMP part evaluated on `c7wit`. -/
theorem c7_destructive_compare_witness :
    (process_instruction c7wit).r 0 = (c7wit.r 0 + 256 - 7) % 256 ∧
    (process_instruction c7wit).c = if c7wit.r 0 < 7 then 1 else 0 :=
  c7_destructive_compare.1 c7wit 0 7 (by decide) (by decide) (by decide) (by decide)

/-! ## C2: the memory-access classifier and which accesses use it -/

/-- A machine about to execute `PUSH R0` with `SP = 0xFF04` and
`R0 = 0x41`: the pushed byte lands at address 0xFF03, inside the MMIO
window. -/
def c2cex : Machine :=
  { r := fun _ => 0x41
    ip := 0
    sp := 0xFF04
    bp := 0
    c := 0
    mem := fun a => if a = 0 then 0x10 else if a = 1 then 0xF2 else 0
    stop := 0
    kbdQueued := none
    stdinBytes := []
    out := [] }

/-- C2 (counterexample): the stack write of `PUSH` is not routed through
the address classifier.  Pushing `R0` with `SP = 0xFF04` changes the RAM
byte at 0xFF03 — an address the claim says is dispatched to MMIO — and
writes nothing to the TTY output (an MMIO write to 0xFF03 would have gone
to `putchar` and left RAM untouched). -/
theorem c2_counterexample :
    (0xFF00 ≤ (0xFF03 : Nat) ∧ (0xFF03 : Nat) ≤ 0xFF03) ∧
    (process_instruction c2cex).mem 0xFF03 = 0x41 ∧
    c2cex.mem 0xFF03 = 0 ∧
    (process_instruction c2cex).out = c2cex.out := by
  decide

/-- C2 (amended): `mem_read`/`mem_write` implement the classifier exactly
as described — `0xFF00..0xFF03` dispatch to MMIO and leave RAM untouched,
address `0xFFFF` is dropped on write and reads `0x00`, every other address
touches RAM (conjuncts 1-3) — and the data accesses of `STORE`, `LOAD`,
`LOADR` and `STORER` go through it: with an arbitrary RAM array, a `STORE`
or `STORER` addressing 0xFF03 appends to the TTY output and leaves RAM
unchanged, and a `LOAD` or `LOADR` addressing 0xFF02 loads the TTY status
1 rather than any RAM byte (conjuncts 4, 7, 8, 9).  But the opcode fetch
at `IP` (conjunct 5: a fetch at `IP = 0xFF02` executes the RAM byte even
though `mem_read` would return the TTY status `0x01`), operand fetches
(conjunct 13: `SET` reads its immediate from the RAM array at `IP + 1`
whatever that address is), and the stack accesses of `PUSH`, `POP`, `CALL`
and `RET` (conjuncts 6, 10, 11, 12: for every `SP`, MMIO window included,
`PUSH` writes the RAM byte at `SP-1`, `POP` loads the RAM byte at `SP`,
`CALL` stores the return address into RAM at `SP-2..SP-1`, and `RET` reads
big-endian from RAM at `SP..SP+1`, none of them touching the console
state) bypass the classifier and access the RAM array directly. -/
theorem c2_classifier :
    (∀ (m : Machine) (a v : Nat), 0xFF00 ≤ a → a ≤ 0xFF03 →
      mem_read m a = mmio_read m a ∧
      mem_write m a v = mmio_write m a v ∧
      (mmio_write m a v).mem = m.mem) ∧
    (∀ (m : Machine) (v : Nat),
      mem_write m 0xFFFF v = m ∧ mem_read m 0xFFFF = (0, m)) ∧
    (∀ (m : Machine) (a v : Nat), ¬ (0xFF00 ≤ a ∧ a ≤ 0xFF03) → a < MEM_SIZE →
      mem_read m a = (m.mem a, m) ∧
      (mem_write m a v).mem a = v % 256 ∧
      (∀ x, x ≠ a → (mem_write m a v).mem x = m.mem x)) ∧
    (∀ m : Machine, m.mem m.ip = 0x02 → m.mem (m.ip + 1) = 0xF2 →
      m.mem (m.ip + 2) = 0xFF → m.mem (m.ip + 3) = 0x03 →
      (process_instruction m).out = m.out ++ [m.r 0 % 256] ∧
      (process_instruction m).mem = m.mem) ∧
    (∀ m : Machine, m.ip = 0xFF02 → m.mem 0xFF02 = 0 →
      (process_instruction m).stop = 1 ∧ (mem_read m 0xFF02).1 = 1) ∧
    (∀ m : Machine, m.mem m.ip = 0x10 → m.mem (m.ip + 1) = 0xF2 →
      (process_instruction m).mem ((m.sp + 65535) % 65536) = m.r 0 % 256) ∧
    (∀ m : Machine, m.mem m.ip = 0x01 → m.mem (m.ip + 1) = 0xFF →
      m.mem (m.ip + 2) = 0x02 → m.mem (m.ip + 3) = 0xF2 →
      (process_instruction m).r 0 = 1 ∧
      (process_instruction m).mem = m.mem) ∧
    (∀ m : Machine, m.mem m.ip = 0x1C → m.mem (m.ip + 1) = 0xF2 →
      m.mem (m.ip + 2) = 0xF3 → m.mem (m.ip + 3) = 0xF4 →
      m.r 1 = 0xFF → m.r 2 = 0x02 →
      (process_instruction m).r 0 = 1 ∧
      (process_instruction m).mem = m.mem) ∧
    (∀ m : Machine, m.mem m.ip = 0x03 → m.mem (m.ip + 1) = 0xF2 →
      m.mem (m.ip + 2) = 0xF3 → m.mem (m.ip + 3) = 0xF4 →
      m.r 1 = 0xFF → m.r 2 = 0x03 →
      (process_instruction m).out = m.out ++ [m.r 0 % 256] ∧
      (process_instruction m).mem = m.mem) ∧
    (∀ m : Machine, m.mem m.ip = 0x11 → m.mem (m.ip + 1) = 0xF2 →
      (process_instruction m).r 0 = m.mem m.sp % 256 ∧
      (process_instruction m).out = m.out ∧
      (process_instruction m).kbdQueued = m.kbdQueued ∧
      (process_instruction m).stdinBytes = m.stdinBytes) ∧
    (∀ m : Machine, m.mem m.ip = 0x12 → 2 ≤ m.sp →
      (process_instruction m).mem (m.sp - 2) = (m.ip + 3) % 65536 / 256 % 256 ∧
      (process_instruction m).mem (m.sp - 1) = (m.ip + 3) % 65536 % 256 ∧
      (process_instruction m).out = m.out) ∧
    (∀ m : Machine, m.mem m.ip = 0x13 →
      (process_instruction m).ip =
        (m.mem m.sp % 65536 * 256 % 65536 + m.mem (m.sp + 1)) % 65536 ∧
      (process_instruction m).mem = m.mem ∧
      (process_instruction m).out = m.out ∧
      (process_instruction m).kbdQueued = m.kbdQueued) ∧
    (∀ m : Machine, m.mem m.ip = 0x04 → m.mem (m.ip + 2) = 0xF2 →
      (process_instruction m).r 0 = m.mem (m.ip + 1) % 256) := by
  refine ⟨?_, ?_, ?_, ?_, ?_, ?_, ?_, ?_, ?_, ?_, ?_, ?_, ?_⟩
  · intro m a v h1 h2
    refine ⟨?_, ?_, ?_⟩
    · unfold mem_read; rw [if_pos ⟨h1, h2⟩]
    · unfold mem_write; rw [if_pos ⟨h1, h2⟩]
    · unfold mmio_write; split <;> rfl
  · intro m v
    constructor
    · unfold mem_write MEM_SIZE; norm_num
    · unfold mem_read MEM_SIZE; norm_num
  · intro m a v h1 h2
    refine ⟨?_, ?_, ?_⟩
    · unfold mem_read MEM_SIZE at *
      rw [if_neg h1, if_neg (by omega)]
    · unfold mem_write MEM_SIZE at *
      rw [if_neg h1, if_neg (by omega)]
      simp [setMem]
    · intro x hx
      unfold mem_write MEM_SIZE at *
      rw [if_neg h1, if_neg (by omega)]
      simp [setMem, hx]
  · intro m hop h1 h2 h3
    rw [dispatch_store m hop]
    have g : gprIndex? 242 = some (0 : Fin 8) := by decide
    simp only [store_instruction, h1, h2, h3, g]
    norm_num [mem_write, mmio_write]
  · intro m hip hmem
    constructor
    · unfold process_instruction
      rw [hip, hmem]
      norm_num
    · unfold mem_read mmio_read
      norm_num
  · intro m hop h1
    rw [dispatch_push m hop]
    have g : gprIndex? 242 = some (0 : Fin 8) := by decide
    simp only [push_instruction, h1, IIP, ISP, IBP, g]
    norm_num [setMem]
  · intro m hop h1 h2 h3
    rw [dispatch_load m hop]
    have g : gprIndex? 242 = some (0 : Fin 8) := by decide
    simp only [load_instruction, h1, h2]
    norm_num [mem_read, mmio_read, updR, h3, g]
  · intro m hop h1 h2 h3 hr1 hr2
    rw [dispatch_loadr m hop]
    have g0 : gprIndex? 242 = some (0 : Fin 8) := by decide
    have g1 : gprIndex? 243 = some (1 : Fin 8) := by decide
    have g2 : gprIndex? 244 = some (2 : Fin 8) := by decide
    simp only [loadr_instruction, h2, h3, g1, g2, hr1, hr2]
    norm_num [mem_read, mmio_read, updR, h1, g0]
  · intro m hop h1 h2 h3 hr1 hr2
    rw [dispatch_storer m hop]
    have g0 : gprIndex? 242 = some (0 : Fin 8) := by decide
    have g1 : gprIndex? 243 = some (1 : Fin 8) := by decide
    have g2 : gprIndex? 244 = some (2 : Fin 8) := by decide
    simp only [storer_instruction, h1, h2, h3, g0, g1, g2, hr1, hr2]
    norm_num [mem_write, mmio_write]
  · intro m hop h1
    rw [dispatch_pop m hop]
    have g : gprIndex? 242 = some (0 : Fin 8) := by decide
    simp only [pop_instruction, h1, IIP, ISP, IBP, g]
    norm_num [updR]
  · intro m hop hsp
    rw [dispatch_call m hop]
    have hne : m.sp - 2 ≠ m.sp - 1 := by omega
    simp only [call_instruction]
    refine ⟨?_, ?_, ?_⟩ <;> simp [setMem, hne]
  · intro m hop
    rw [dispatch_ret m hop]
    simp only [ret_instruction]
    refine ⟨?_, ?_, ?_, ?_⟩ <;> trivial
  · intro m hop h2
    rw [dispatch_set m hop]
    have g : gprIndex? 242 = some (0 : Fin 8) := by decide
    simp only [set_instruction, h2, g]
    norm_num [updR]

/-- C2 witness: the bypass conjunct of the amended theorem evaluated on
`c2cex`. -/
theorem c2_classifier_witness :
    (process_instruction c2cex).mem ((c2cex.sp + 65535) % 65536) = c2cex.r 0 % 256 :=
  c2_classifier.2.2.2.2.2.1 c2cex (by decide) (by decide)

/-! ## C4: snapshot save / restore round trip -/

theorem save_length (m : Machine) : (save_debug_image m).length = 27 + MEM_SIZE := by
  simp [save_debug_image]
  omega

theorem save_mem_getD (m : Machine) (a : Nat) (ha : a < MEM_SIZE) :
    (save_debug_image m).getD (27 + a) 0 = m.mem a := by
  unfold save_debug_image
  rw [List.getD_append_right _ _ _ _ (by simp)]
  simp [List.getD_eq_getElem, ha]

/-- C4: for every type-valid VM state, saving a snapshot and then restoring
it succeeds and yields bit-identical state — `R0..R7`, `IP`, `SP`, `BP`,
the carry flag and all `MEM_SIZE` memory bytes are unchanged — and the
restoration resets `STOP` to 0. -/
theorem c4_snapshot_roundtrip (m : Machine)
    (hr : ∀ i, m.r i < 256) (hip : m.ip < 65536) (hsp : m.sp < 65536)
    (hbp : m.bp < 65536) (hc : m.c < 256)
    (hmem : ∀ a, a < MEM_SIZE → m.mem a < 256) :
    ∃ m2, load_debug_image m (save_debug_image m) = some m2 ∧
      (∀ i, m2.r i = m.r i) ∧ m2.ip = m.ip ∧ m2.sp = m.sp ∧ m2.bp = m.bp ∧
      m2.c = m.c ∧ (∀ a, a < MEM_SIZE → m2.mem a = m.mem a) ∧ m2.stop = 0 := by
  have hload : load_debug_image m (save_debug_image m) = some
      { m with
        r := fun i => (save_debug_image m).getD (5 + i.val) 0
        ip := ((save_debug_image m).getD 13 0 % 65536 * 256 % 65536 +
               (save_debug_image m).getD 14 0 % 65536) % 65536
        sp := ((save_debug_image m).getD 15 0 % 65536 * 256 % 65536 +
               (save_debug_image m).getD 16 0 % 65536) % 65536
        bp := ((save_debug_image m).getD 17 0 % 65536 * 256 % 65536 +
               (save_debug_image m).getD 18 0 % 65536) % 65536
        c := (save_debug_image m).getD 19 0
        mem := fun a => (save_debug_image m).getD (27 + a) 0
        stop := 0 } := by
    unfold load_debug_image
    rw [if_pos (by rw [save_length]), if_pos (by exact ⟨rfl, rfl, rfl, rfl⟩),
        if_pos (by exact rfl)]
  refine ⟨_, hload, ?_, ?_, ?_, ?_, ?_, ?_, ?_⟩
  · intro i
    fin_cases i <;> rfl
  · show ((save_debug_image m).getD 13 0 % 65536 * 256 % 65536 +
          (save_debug_image m).getD 14 0 % 65536) % 65536 = m.ip
    have e1 : (save_debug_image m).getD 13 0 = m.ip / 256 % 256 := rfl
    have e2 : (save_debug_image m).getD 14 0 = m.ip % 256 := rfl
    rw [e1, e2]
    omega
  · show ((save_debug_image m).getD 15 0 % 65536 * 256 % 65536 +
          (save_debug_image m).getD 16 0 % 65536) % 65536 = m.sp
    have e1 : (save_debug_image m).getD 15 0 = m.sp / 256 % 256 := rfl
    have e2 : (save_debug_image m).getD 16 0 = m.sp % 256 := rfl
    rw [e1, e2]
    omega
  · show ((save_debug_image m).getD 17 0 % 65536 * 256 % 65536 +
          (save_debug_image m).getD 18 0 % 65536) % 65536 = m.bp
    have e1 : (save_debug_image m).getD 17 0 = m.bp / 256 % 256 := rfl
    have e2 : (save_debug_image m).getD 18 0 = m.bp % 256 := rfl
    rw [e1, e2]
    omega
  · rfl
  · intro a ha
    exact save_mem_getD m a ha
  · rfl

/-- A halted machine state to snapshot. -/
def c4wit : Machine :=
  { r := fun _ => 0
    ip := 0x1234
    sp := 0xFFFF
    bp := 7
    c := 1
    mem := fun _ => 0
    stop := 1
    kbdQueued := none
    stdinBytes := []
    out := [] }

/-- C4 witness: the round-trip theorem evaluated on `c4wit`. -/
theorem c4_snapshot_roundtrip_witness :
    ∃ m2, load_debug_image c4wit (save_debug_image c4wit) = some m2 ∧
      (∀ i, m2.r i = c4wit.r i) ∧ m2.ip = c4wit.ip ∧ m2.sp = c4wit.sp ∧
      m2.bp = c4wit.bp ∧ m2.c = c4wit.c ∧
      (∀ a, a < MEM_SIZE → m2.mem a = c4wit.mem a) ∧ m2.stop = 0 :=
  c4_snapshot_roundtrip c4wit
    (fun i => by show (0 : Nat) < 256; decide)
    (by decide) (by decide) (by decide) (by decide)
    (fun a ha => by show (0 : Nat) < 256; decide)

/-! ## C9: PUSH with the SP register token -/

/-- C9: `PUSH SP` stores the 16-bit value `SP_pre - 1` (the stack pointer
after the handler's initial pre-decrement), big-endian, into
`mem[SP_pre-2 .. SP_pre-1]`, and leaves `SP = SP_pre - 2`. -/
theorem c9_push_sp (m : Machine)
    (hop : m.mem m.ip = 0x10) (hsrc : m.mem (m.ip + 1) = 0xFB)
    (hsp : 2 ≤ m.sp) (hsp2 : m.sp < 65536) :
    (process_instruction m).mem (m.sp - 2) = (m.sp - 1) / 256 ∧
    (process_instruction m).mem (m.sp - 1) = (m.sp - 1) % 256 ∧
    (process_instruction m).sp = m.sp - 2 := by
  rw [dispatch_push m hop]
  exact push_sp_spec m hsrc hsp hsp2

/-- A machine about to execute `PUSH SP` with `SP = 0x0100`. -/
def c9wit : Machine :=
  { r := fun _ => 0
    ip := 0
    sp := 0x0100
    bp := 0
    c := 0
    mem := fun a => if a = 0 then 0x10 else if a = 1 then 0xFB else 0
    stop := 0
    kbdQueued := none
    stdinBytes := []
    out := [] }

/-- C9 witness: the theorem evaluated on `c9wit`. -/
theorem c9_push_sp_witness :
    (process_instruction c9wit).mem (c9wit.sp - 2) = (c9wit.sp - 1) / 256 ∧
    (process_instruction c9wit).mem (c9wit.sp - 1) = (c9wit.sp - 1) % 256 ∧
    (process_instruction c9wit).sp = c9wit.sp - 2 :=
  c9_push_sp c9wit (by decide) (by decide) (by decide) (by decide)

/-! ## C8: breakpoint resolution -/

/-- Bool form of "CODE record matching the requested file and line": the
file matches exactly or by basename (`fileMatches`). -/
def codeMatchesB (f : List Char) (ln : Int) (l : DebLine) : Bool :=
  l.is_code && decide (l.line_no = ln) && fileMatches l.file f

/-- Bool form of "any record (code or data) matching the request". -/
def anyMatchesB (f : List Char) (ln : Int) (l : DebLine) : Bool :=
  decide (l.line_no = ln) && fileMatches l.file f

theorem findBreakStep_eq (f : List Char) (ln : Int) (acc : Bool × Nat) (l : DebLine) :
    findBreakStep f ln acc l =
      if codeMatchesB f ln l then
        (if !acc.1 || l.addr < acc.2 then (true, l.addr) else acc)
      else acc := by
  unfold findBreakStep codeMatchesB
  by_cases h1 : l.is_code <;> by_cases h2 : l.line_no = ln <;>
    by_cases h3 : fileMatches l.file f <;> simp [h1, h2, h3]

theorem findBreak_fst (f : List Char) (ln : Int) :
    ∀ (lines : List DebLine) (acc : Bool × Nat),
      (lines.foldl (findBreakStep f ln) acc).1 =
        (acc.1 || lines.any (codeMatchesB f ln)) := by
  intro lines
  induction lines with
  | nil => simp
  | cons x rest ih =>
    intro acc
    simp only [List.foldl_cons, List.any_cons, findBreakStep_eq]
    by_cases hm : codeMatchesB f ln x
    · rw [if_pos hm]
      by_cases hupd : (!acc.1 || decide (x.addr < acc.2)) = true
      · rw [if_pos hupd, ih]
        simp [hm]
      · rw [if_neg hupd, ih]
        have hacc : acc.1 = true := by
          by_contra hn
          rw [Bool.not_eq_true] at hn
          simp [hn] at hupd
        simp [hacc]
    · rw [if_neg hm, ih]
      have hm2 : codeMatchesB f ln x = false := by
        rw [← Bool.not_eq_true]; exact hm
      simp [hm2]

theorem findBreak_mono (f : List Char) (ln : Int) :
    ∀ (lines : List DebLine) (acc : Bool × Nat), acc.1 = true →
      (lines.foldl (findBreakStep f ln) acc).1 = true ∧
      (lines.foldl (findBreakStep f ln) acc).2 ≤ acc.2 := by
  intro lines
  induction lines with
  | nil => intro acc h; simpa using h
  | cons x rest ih =>
    intro acc h
    simp only [List.foldl_cons, findBreakStep_eq]
    by_cases hm : codeMatchesB f ln x
    · rw [if_pos hm]
      by_cases hupd : (!acc.1 || decide (x.addr < acc.2)) = true
      · rw [if_pos hupd]
        rcases ih (true, x.addr) rfl with ⟨ha, hb⟩
        refine ⟨ha, le_trans hb ?_⟩
        rw [h] at hupd
        simp only [Bool.not_true, Bool.false_or, decide_eq_true_eq] at hupd
        omega
      · rw [if_neg hupd]
        exact ih acc h
    · rw [if_neg hm]
      exact ih acc h

theorem findBreak_min (f : List Char) (ln : Int) :
    ∀ (lines : List DebLine) (acc : Bool × Nat) (l : DebLine), l ∈ lines →
      codeMatchesB f ln l = true →
      (lines.foldl (findBreakStep f ln) acc).2 ≤ l.addr := by
  intro lines
  induction lines with
  | nil => intro acc l h; simp at h
  | cons x rest ih =>
    intro acc l hmem hl
    simp only [List.foldl_cons, findBreakStep_eq]
    rcases List.mem_cons.mp hmem with rfl | hrest
    · rw [if_pos hl]
      by_cases hupd : (!acc.1 || decide (l.addr < acc.2)) = true
      · rw [if_pos hupd]
        exact (findBreak_mono f ln rest (true, l.addr) rfl).2
      · rw [if_neg hupd]
        have hfst : acc.1 = true := by
          by_contra hn
          rw [Bool.not_eq_true] at hn
          simp [hn] at hupd
        have hle : acc.2 ≤ l.addr := by
          rw [hfst] at hupd
          simp only [Bool.not_true, Bool.false_or, decide_eq_true_eq] at hupd
          omega
        exact le_trans (findBreak_mono f ln rest acc hfst).2 hle
    · exact ih _ l hrest hl

theorem findBreak_mem (f : List Char) (ln : Int) :
    ∀ (lines : List DebLine) (acc : Bool × Nat),
      (lines.foldl (findBreakStep f ln) acc).1 = true →
      (acc.1 = true ∧ (lines.foldl (findBreakStep f ln) acc).2 = acc.2) ∨
      (∃ l ∈ lines, codeMatchesB f ln l = true ∧
        (lines.foldl (findBreakStep f ln) acc).2 = l.addr) := by
  intro lines
  induction lines with
  | nil => intro acc h; left; exact ⟨by simpa using h, rfl⟩
  | cons x rest ih =>
    intro acc hfound
    simp only [List.foldl_cons, findBreakStep_eq] at hfound ⊢
    by_cases hm : codeMatchesB f ln x
    · rw [if_pos hm] at hfound ⊢
      by_cases hupd : (!acc.1 || decide (x.addr < acc.2)) = true
      · rw [if_pos hupd] at hfound ⊢
        rcases ih (true, x.addr) hfound with ⟨h1, h2⟩ | ⟨l, hmem, hl, he⟩
        · right; exact ⟨x, List.mem_cons_self x rest, hm, h2⟩
        · right; exact ⟨l, List.mem_cons_of_mem x hmem, hl, he⟩
      · rw [if_neg hupd] at hfound ⊢
        rcases ih acc hfound with ⟨h1, h2⟩ | ⟨l, hmem, hl, he⟩
        · left; exact ⟨h1, h2⟩
        · right; exact ⟨l, List.mem_cons_of_mem x hmem, hl, he⟩
    · rw [if_neg hm] at hfound ⊢
      rcases ih acc hfound with ⟨h1, h2⟩ | ⟨l, hmem, hl, he⟩
      · left; exact ⟨h1, h2⟩
      · right; exact ⟨l, List.mem_cons_of_mem x hmem, hl, he⟩

theorem find_break_addr_some_iff (lines : List DebLine) (f : List Char) (ln : Int)
    (a : Nat) :
    find_break_addr lines f ln = some a ↔
      ((List.foldl (findBreakStep f ln) (false, 0xFFFF) lines).1 = true ∧
       (List.foldl (findBreakStep f ln) (false, 0xFFFF) lines).2 = a) := by
  simp only [find_break_addr]
  split <;> simp_all

theorem has_any_iff (lines : List DebLine) (f : List Char) (ln : Int) :
    has_any_mapping_for_line lines f ln = true ↔
      ∃ l ∈ lines, anyMatchesB f ln l = true := by
  unfold has_any_mapping_for_line anyMatchesB
  rw [List.any_eq_true]

theorem resolve_ok_find (lines : List DebLine) (f : List Char) (ln : Int) (a : Nat)
    (h : resolve_breakpoint lines f ln = .ok a) :
    find_break_addr lines f ln = some a := by
  unfold resolve_breakpoint at h
  cases hfb : find_break_addr lines f ln with
  | some b =>
    rw [hfb] at h
    simp only [Except.ok.injEq] at h
    rw [h]
  | none =>
    rw [hfb] at h
    by_cases hany : has_any_mapping_for_line lines f ln = true <;> simp [hany] at h

theorem code_implies_any (f : List Char) (ln : Int) (l : DebLine) :
    codeMatchesB f ln l = true → anyMatchesB f ln l = true := by
  unfold codeMatchesB anyMatchesB
  intro h
  simp only [Bool.and_eq_true] at h ⊢
  exact ⟨h.1.2, h.2⟩

/-- C8: for every loaded debug map, requested file, and line number: a
successful resolution returns the smallest start address of a CODE record
whose line matches and whose file matches exactly or by basename; when a
matching CODE record exists, resolution succeeds; the error is
`NoExecutableOnLine` iff no CODE record matches but some record does; and
`BreakpointNotFound` iff no record matches at all. -/
theorem c8_breakpoint_resolver (lines : List DebLine) (f : List Char) (ln : Int) :
    (∀ a, resolve_breakpoint lines f ln = .ok a →
       (∃ l ∈ lines, codeMatchesB f ln l = true ∧ l.addr = a) ∧
       (∀ l ∈ lines, codeMatchesB f ln l = true → a ≤ l.addr)) ∧
    ((∃ l ∈ lines, codeMatchesB f ln l = true) →
       ∃ a, resolve_breakpoint lines f ln = .ok a) ∧
    (resolve_breakpoint lines f ln = .error .noExecutableOnLine ↔
       (∀ l ∈ lines, codeMatchesB f ln l = false) ∧
       ∃ l ∈ lines, anyMatchesB f ln l = true) ∧
    (resolve_breakpoint lines f ln = .error .breakpointNotFound ↔
       ∀ l ∈ lines, anyMatchesB f ln l = false) := by
  have hfst := findBreak_fst f ln lines (false, 0xFFFF)
  simp only [Bool.false_or] at hfst
  have hnone : find_break_addr lines f ln = none ↔
      lines.any (codeMatchesB f ln) = false := by
    simp only [find_break_addr]
    rw [← hfst]
    split <;> simp_all
  refine ⟨?_, ?_, ?_, ?_⟩
  · intro a ha
    have hok := resolve_ok_find lines f ln a ha
    rcases (find_break_addr_some_iff lines f ln a).mp hok with ⟨hfound, hbest⟩
    constructor
    · rcases findBreak_mem f ln lines _ hfound with ⟨h1, _⟩ | ⟨l, hmem, hl, he⟩
      · simp at h1
      · exact ⟨l, hmem, hl, by rw [← hbest, he]⟩
    · intro l hmem hl
      rw [← hbest]
      exact findBreak_min f ln lines _ l hmem hl
  · rintro ⟨l, hmem, hl⟩
    have hfound : (List.foldl (findBreakStep f ln) (false, 0xFFFF) lines).1 = true := by
      rw [hfst, List.any_eq_true]
      exact ⟨l, hmem, hl⟩
    have hfb : find_break_addr lines f ln =
        some (List.foldl (findBreakStep f ln) (false, 0xFFFF) lines).2 :=
      (find_break_addr_some_iff lines f ln _).mpr ⟨hfound, rfl⟩
    refine ⟨(List.foldl (findBreakStep f ln) (false, 0xFFFF) lines).2, ?_⟩
    unfold resolve_breakpoint
    rw [hfb]
  · constructor
    · intro h
      unfold resolve_breakpoint at h
      cases hfb : find_break_addr lines f ln with
      | some b => rw [hfb] at h; simp at h
      | none =>
        rw [hfb] at h
        have hno := hnone.mp hfb
        rw [List.any_eq_false] at hno
        by_cases hany : has_any_mapping_for_line lines f ln = true
        · constructor
          · intro l hmem
            rw [← Bool.not_eq_true]
            exact hno l hmem
          · exact (has_any_iff lines f ln).mp hany
        · simp [hany] at h
    · rintro ⟨hnocode, l, hmem, hl⟩
      have hfb : find_break_addr lines f ln = none := by
        rw [hnone, List.any_eq_false]
        intro x hx
        rw [hnocode x hx]
        simp
      unfold resolve_breakpoint
      rw [hfb]
      rw [if_pos ((has_any_iff lines f ln).mpr ⟨l, hmem, hl⟩)]
  · constructor
    · intro h
      unfold resolve_breakpoint at h
      cases hfb : find_break_addr lines f ln with
      | some b => rw [hfb] at h; simp at h
      | none =>
        rw [hfb] at h
        by_cases hany : has_any_mapping_for_line lines f ln = true
        · simp [hany] at h
        · intro l hmem
          rw [← Bool.not_eq_true]
          intro hcontra
          exact hany ((has_any_iff lines f ln).mpr ⟨l, hmem, hcontra⟩)
    · intro hnoany
      have hfb : find_break_addr lines f ln = none := by
        rw [hnone, List.any_eq_false]
        intro x hx hcontra
        have hca := code_implies_any f ln x hcontra
        rw [hnoany x hx] at hca
        exact Bool.noConfusion hca
      have hna : ¬ has_any_mapping_for_line lines f ln = true := by
        intro hcontra
        rcases (has_any_iff lines f ln).mp hcontra with ⟨l, hmem, hl⟩
        rw [hnoany l hmem] at hl
        exact Bool.noConfusion hl
      unfold resolve_breakpoint
      rw [hfb]
      rw [if_neg hna]

/-- A small debug map: one DATA record and two CODE records on line 3, the
latter matching the request `a.s8` exactly and by basename. -/
def c8lines : List DebLine :=
  [⟨5, false, "x/a.s8".toList, 3⟩, ⟨9, true, "a.s8".toList, 3⟩,
   ⟨7, true, "b/a.s8".toList, 3⟩]

/-- C8 witness: resolving `a.s8:3` on `c8lines` yields address 7, the
smaller of the two matching CODE addresses. -/
theorem c8_breakpoint_resolver_witness :
    (∃ l ∈ c8lines, codeMatchesB ("a.s8".toList) 3 l = true ∧ l.addr = 7) ∧
    (∀ l ∈ c8lines, codeMatchesB ("a.s8".toList) 3 l = true → 7 ≤ l.addr) :=
  (c8_breakpoint_resolver c8lines ("a.s8".toList) 3).1 7 (by rfl)

/-! ## C10: empty operand tokens are dropped everywhere -/

/-- Plain comma-separated tokenization keeping empty tokens (the reference
point for what `split_operands` drops). -/
def splitKeepEmpty : List Char → List (List Char)
  | [] => [[]]
  | ch :: rest =>
    if ch = ',' then [] :: splitKeepEmpty rest
    else
      match splitKeepEmpty rest with
      | [] => [[ch]]
      | t :: ts => (ch :: t) :: ts

theorem splitKeepEmpty_ne_nil (s : List Char) : splitKeepEmpty s ≠ [] := by
  induction s with
  | nil => simp [splitKeepEmpty]
  | cons ch rest ih =>
    unfold splitKeepEmpty
    by_cases h : ch = ','
    · simp [h]
    · rw [if_neg h]
      cases splitKeepEmpty rest <;> simp

theorem modifyHead_nilPre (l : List (List Char)) :
    l.modifyHead (fun t => List.reverse [] ++ t) = l := by
  cases l <;> rfl

theorem split_operands_go_eq (s : List Char) : ∀ cur,
    split_operands_go cur s =
      (((splitKeepEmpty s).modifyHead (fun t => cur.reverse ++ t)).map trim).filter
        (fun t => !t.isEmpty) := by
  induction s with
  | nil =>
    intro cur
    simp only [split_operands_go, splitKeepEmpty, List.modifyHead, List.map,
      List.filter, List.append_nil]
    by_cases h : (trim cur.reverse).isEmpty <;> simp [h]
  | cons ch rest ih =>
    intro cur
    by_cases h : ch = ','
    · subst h
      simp only [split_operands_go, if_pos rfl, splitKeepEmpty]
      rw [ih []]
      rw [modifyHead_nilPre]
      simp only [List.modifyHead, List.map, List.filter, List.append_nil]
      by_cases he : (trim cur.reverse).isEmpty <;> simp [he]
    · simp only [split_operands_go, if_neg h, splitKeepEmpty]
      rw [ih (ch :: cur)]
      cases hs : splitKeepEmpty rest with
      | nil => exact absurd hs (splitKeepEmpty_ne_nil rest)
      | cons t ts =>
        simp only [if_neg h, List.modifyHead, List.reverse_cons, List.append_assoc,
          List.cons_append, List.nil_append]

/-- C10: in every comma-separated operand list, every empty (after
trimming) token is dropped — interior ones included, not just a trailing
one — so an interior double comma causes no error, contributes no byte in
`.byte`, and instruction arity checks count only the non-empty tokens.
The first conjunct characterizes `split_operands` on all inputs; the
remaining conjuncts run pass 1 on `.byte 1,,2` (two bytes reserved, no
error) and on `SET #1,,R0` (two operands counted, arity check passes). -/
theorem c10_empty_tokens_dropped :
    (∀ s, split_operands s =
       ((splitKeepEmpty s).map trim).filter (fun t => !t.isEmpty)) ∧
    (split_operands ("1,,2".toList) = ["1".toList, "2".toList]) ∧
    (pass1Line initP1 (".byte 1,,2".toList) =
       .ok ({ sym := [], lc := 5, anyOrg := false, entryMarkAddr := none,
              firstOrgAddr := none },
            [⟨ItemKind.dir, ".byte".toList, ["1".toList, "2".toList], 3, 2⟩])) ∧
    (pass1Line initP1 ("SET #1,,R0".toList) =
       .ok ({ sym := [], lc := 6, anyOrg := false, entryMarkAddr := none,
              firstOrgAddr := none },
            [⟨ItemKind.ins, "SET".toList, ["#1".toList, "R0".toList], 3, 3⟩])) := by
  refine ⟨?_, by rfl, by rfl, by rfl⟩
  intro s
  unfold split_operands
  rw [split_operands_go_eq s []]
  rw [modifyHead_nilPre]



theorem getD_set_s8 (l : List Nat) (b v x : Nat) :
    (l.set b v).getD x 0 = if x = b ∧ b < l.length then v else l.getD x 0 := by
  induction l generalizing b x with
  | nil => simp
  | cons a t ih =>
    cases b with
    | zero =>
      cases x with
      | zero => simp [List.set]
      | succ y => simp [List.set, List.getD]
    | succ b1 =>
      cases x with
      | zero => simp [List.set, List.getD]
      | succ y =>
        simp only [List.set, List.getD_cons_succ, ih, List.length_cons]
        by_cases hy : y = b1 ∧ b1 < t.length
        · rw [if_pos hy, if_pos ⟨by omega, by omega⟩]
        · rw [if_neg hy, if_neg (by omega)]

theorem emit_byte_ok (img used : List Nat) (a v : Nat) (i2 u2 : List Nat)
    (h : emit_byte img used a v = .ok (i2, u2)) :
    a < MEM_SIZE ∧ used.getD a 0 = 0 ∧ i2 = img.set a v ∧ u2 = used.set a 1 := by
  unfold emit_byte at h
  by_cases h1 : a < MEM_SIZE
  · rw [if_neg (not_not_intro h1)] at h
    by_cases h2 : used.getD a 0 = 0
    · rw [if_neg (not_not_intro h2)] at h
      simp only [Except.ok.injEq, Prod.mk.injEq] at h
      exact ⟨h1, h2, h.1.symm, h.2.symm⟩
    · rw [if_pos h2] at h
      exact absurd h (by simp)
  · rw [if_pos h1] at h
    exact absurd h (by simp)

theorem emit_byte_props (img used : List Nat) (a v : Nat) (i2 u2 : List Nat)
    (h : emit_byte img used a v = .ok (i2, u2)) :
    i2.length = img.length ∧ u2.length = used.length ∧
    (∀ x, used.getD x 0 = 1 → u2.getD x 0 = 1) ∧
    (∀ x, used.getD x 0 = 1 → i2.getD x 0 = img.getD x 0) := by
  obtain ⟨h1, h2, rfl, rfl⟩ := emit_byte_ok img used a v i2 u2 h
  refine ⟨by simp, by simp, ?_, ?_⟩
  · intro x hx
    rw [getD_set_s8]
    by_cases hc : x = a ∧ a < used.length
    · rw [if_pos hc]
    · rw [if_neg hc]; exact hx
  · intro x hx
    have hxa : x ≠ a := by
      intro he
      rw [he, h2] at hx
      exact absurd hx (by omega)
    rw [getD_set_s8, if_neg (fun hc => hxa hc.1)]

theorem emitList_props : ∀ (bs : List Nat) (img used : List Nat) (addr : Nat)
    (i2 u2 : List Nat), emitList img used addr bs = .ok (i2, u2) →
    i2.length = img.length ∧ u2.length = used.length ∧
    (∀ x, used.getD x 0 = 1 → u2.getD x 0 = 1) ∧
    (∀ x, used.getD x 0 = 1 → i2.getD x 0 = img.getD x 0) := by
  intro bs
  induction bs with
  | nil =>
    intro img used addr i2 u2 h
    simp only [emitList, Except.ok.injEq, Prod.mk.injEq] at h
    obtain ⟨rfl, rfl⟩ := h
    exact ⟨rfl, rfl, fun x hx => hx, fun x hx => rfl⟩
  | cons b rest ih =>
    intro img used addr i2 u2 h
    simp only [emitList] at h
    cases hb : emit_byte img used addr b with
    | error e => rw [hb] at h; exact absurd h (by simp)
    | ok p =>
      obtain ⟨i1, u1⟩ := p
      rw [hb] at h
      obtain ⟨l1, l2, m1, p1⟩ := emit_byte_props img used addr b i1 u1 hb
      obtain ⟨L1, L2, M1, P1⟩ := ih i1 u1 (addr + 1) i2 u2 h
      refine ⟨L1.trans l1, L2.trans l2, ?_, ?_⟩
      · intro x hx; exact M1 x (m1 x hx)
      · intro x hx; exact (P1 x (m1 x hx)).trans (p1 x hx)

theorem emitByteOps_props : ∀ (ops : List (List Char)) (img used : List Nat)
    (addr : Nat) (i2 u2 : List Nat),
    emitByteOps img used addr ops = .ok (i2, u2) →
    i2.length = img.length ∧ u2.length = used.length ∧
    (∀ x, used.getD x 0 = 1 → u2.getD x 0 = 1) ∧
    (∀ x, used.getD x 0 = 1 → i2.getD x 0 = img.getD x 0) := by
  intro ops
  induction ops with
  | nil =>
    intro img used addr i2 u2 h
    simp only [emitByteOps, Except.ok.injEq, Prod.mk.injEq] at h
    obtain ⟨rfl, rfl⟩ := h
    exact ⟨rfl, rfl, fun x hx => hx, fun x hx => rfl⟩
  | cons op rest ih =>
    intro img used addr i2 u2 h
    simp only [emitByteOps] at h
    repeat' split at h
    all_goals try (exfalso; exact Except.noConfusion h)
    rename_i i1 u1 hb
    obtain ⟨l1, l2, m1, p1⟩ := emit_byte_props img used addr _ _ _ hb
    obtain ⟨L1, L2, M1, P1⟩ := ih i1 u1 (addr + 1) i2 u2 h
    refine ⟨L1.trans l1, L2.trans l2, ?_, ?_⟩
    · intro x hx; exact M1 x (m1 x hx)
    · intro x hx; exact (P1 x (m1 x hx)).trans (p1 x hx)

theorem emitWordOps_props (sym : List (List Char × Nat)) :
    ∀ (ops : List (List Char)) (img used : List Nat) (addr : Nat) (i2 u2 : List Nat),
    emitWordOps sym img used addr ops = .ok (i2, u2) →
    i2.length = img.length ∧ u2.length = used.length ∧
    (∀ x, used.getD x 0 = 1 → u2.getD x 0 = 1) ∧
    (∀ x, used.getD x 0 = 1 → i2.getD x 0 = img.getD x 0) := by
  intro ops
  induction ops with
  | nil =>
    intro img used addr i2 u2 h
    simp only [emitWordOps, Except.ok.injEq, Prod.mk.injEq] at h
    obtain ⟨rfl, rfl⟩ := h
    exact ⟨rfl, rfl, fun x hx => hx, fun x hx => rfl⟩
  | cons op rest ih =>
    intro img used addr i2 u2 h
    simp only [emitWordOps] at h
    repeat' split at h
    all_goals try (exfalso; exact Except.noConfusion h)
    rename_i e1 x2 a2 b2 e2
    obtain ⟨l1, l2, m1, p1⟩ := emit_byte_props _ _ _ _ _ _ e1
    obtain ⟨l3, l4, m2, p2⟩ := emit_byte_props _ _ _ _ _ _ e2
    obtain ⟨L1, L2, M1, P1⟩ := ih _ _ (addr + 2) i2 u2 h
    refine ⟨(L1.trans l3).trans l1, (L2.trans l4).trans l2, ?_, ?_⟩
    · intro x hx; exact M1 x (m2 x (m1 x hx))
    · intro x hx
      exact ((P1 x (m2 x (m1 x hx))).trans (p2 x (m1 x hx))).trans (p1 x hx)

theorem emitIns_props (sym : List (List Char × Nat)) (img used : List Nat)
    (it : Item) (i2 u2 : List Nat)
    (h : emitIns sym img used it = .ok (i2, u2)) :
    i2.length = img.length ∧ u2.length = used.length ∧
    (∀ x, used.getD x 0 = 1 → u2.getD x 0 = 1) ∧
    (∀ x, used.getD x 0 = 1 → i2.getD x 0 = img.getD x 0) := by
  simp only [emitIns] at h
  repeat' split at h
  all_goals try (exfalso; exact Except.noConfusion h)
  rename_i e1 xo bytes e2
  obtain ⟨l1, l2, m1, p1⟩ := emit_byte_props _ _ _ _ _ _ e1
  obtain ⟨L1, L2, M1, P1⟩ := emitList_props bytes _ _ (it.addr + 1) i2 u2 h
  refine ⟨L1.trans l1, L2.trans l2, ?_, ?_⟩
  · intro x hx; exact M1 x (m1 x hx)
  · intro x hx; exact (P1 x (m1 x hx)).trans (p1 x hx)

theorem emitItem_props (sym : List (List Char × Nat)) (img used : List Nat)
    (it : Item) (i2 u2 : List Nat)
    (h : emitItem sym img used it = .ok (i2, u2)) :
    i2.length = img.length ∧ u2.length = used.length ∧
    (∀ x, used.getD x 0 = 1 → u2.getD x 0 = 1) ∧
    (∀ x, used.getD x 0 = 1 → i2.getD x 0 = img.getD x 0) := by
  obtain ⟨kind, name, ops, addr, size⟩ := it
  cases kind with
  | ins => exact emitIns_props sym img used _ i2 u2 h
  | dir =>
    simp only [emitItem] at h
    repeat' split at h
    all_goals try (exfalso; exact Except.noConfusion h)
    · simp only [Except.ok.injEq, Prod.mk.injEq] at h
      obtain ⟨rfl, rfl⟩ := h
      exact ⟨rfl, rfl, fun x hx => hx, fun x hx => rfl⟩
    · exact emitByteOps_props _ img used _ i2 u2 h
    · exact emitList_props _ _ _ _ _ _ h
    · exact emitWordOps_props sym _ img used _ i2 u2 h
    · simp only [Except.ok.injEq, Prod.mk.injEq] at h
      obtain ⟨rfl, rfl⟩ := h
      exact ⟨rfl, rfl, fun x hx => hx, fun x hx => rfl⟩

theorem emitItems_props (sym : List (List Char × Nat)) :
    ∀ (items : List Item) (img used : List Nat) (i2 u2 : List Nat),
    emitItems sym img used items = .ok (i2, u2) →
    i2.length = img.length ∧ u2.length = used.length ∧
    (∀ x, used.getD x 0 = 1 → u2.getD x 0 = 1) ∧
    (∀ x, used.getD x 0 = 1 → i2.getD x 0 = img.getD x 0) := by
  intro items
  induction items with
  | nil =>
    intro img used i2 u2 h
    simp only [emitItems, Except.ok.injEq, Prod.mk.injEq] at h
    obtain ⟨rfl, rfl⟩ := h
    exact ⟨rfl, rfl, fun x hx => hx, fun x hx => rfl⟩
  | cons it rest ih =>
    intro img used i2 u2 h
    simp only [emitItems] at h
    cases hb : emitItem sym img used it with
    | error e => rw [hb] at h; exact absurd h (by simp)
    | ok p =>
      obtain ⟨i1, u1⟩ := p
      rw [hb] at h
      obtain ⟨l1, l2, m1, p1⟩ := emitItem_props sym img used it i1 u1 hb
      obtain ⟨L1, L2, M1, P1⟩ := ih i1 u1 i2 u2 h
      refine ⟨L1.trans l1, L2.trans l2, ?_, ?_⟩
      · intro x hx; exact M1 x (m1 x hx)
      · intro x hx; exact (P1 x (m1 x hx)).trans (p1 x hx)


/-- The pass-1 facts needed about the entry address: both recorded entry
candidates, when present, are 16-bit. -/
def EntryInv (st : P1State) : Prop :=
  (∀ e, st.entryMarkAddr = some e → e ≤ 0xFFFF) ∧
  (∀ a, st.firstOrgAddr = some a → a ≤ 0xFFFF)

theorem checkLcEnd_ok (st : P1State) (items : List Item) (st2 : P1State)
    (its2 : List Item) (h : checkLcEnd st items = .ok (st2, its2)) :
    st2 = st ∧ its2 = items ∧ st.lc ≤ MEM_SIZE := by
  unfold checkLcEnd at h
  split at h
  · simp only [Except.ok.injEq, Prod.mk.injEq] at h
    exact ⟨h.1.symm, h.2.symm, by assumption⟩
  · exact absurd h (by simp)

theorem pass1Org_inv (st : P1State) (dname : List Char) (ops : List (List Char))
    (st1 : P1State) (its : List Item) (h : pass1Org st dname ops = .ok (st1, its))
    (hinv : EntryInv st) : EntryInv st1 := by
  obtain ⟨hmk, hfo⟩ := hinv
  simp only [pass1Org] at h
  repeat' split at h
  all_goals try (exfalso; exact Except.noConfusion h)
  · obtain ⟨rfl, -, hl⟩ := checkLcEnd_ok _ _ _ _ h
    refine ⟨?_, ?_⟩ <;> intro z hz
    · simp only [Option.some.injEq] at hz
      exact hz ▸ (hl : st.lc ≤ MEM_SIZE)
    · exact hfo z hz
  · obtain ⟨rfl, -, hl⟩ := checkLcEnd_ok _ _ _ _ h
    exact ⟨fun z hz => hmk z hz, fun z hz => hfo z hz⟩
  · obtain ⟨rfl, -, hl⟩ := checkLcEnd_ok _ _ _ _ h
    refine ⟨fun z hz => hmk z hz, ?_⟩
    intro z hz
    simp only [Option.some.injEq] at hz
    omega

theorem pass1String_inv (st : P1State) (dname rest : List Char)
    (st1 : P1State) (its : List Item)
    (h : pass1String st dname rest = .ok (st1, its))
    (hinv : EntryInv st) : EntryInv st1 := by
  obtain ⟨hmk, hfo⟩ := hinv
  simp only [pass1String] at h
  repeat' split at h
  all_goals try (exfalso; exact Except.noConfusion h)
  obtain ⟨rfl, -, -⟩ := checkLcEnd_ok _ _ _ _ h
  exact ⟨hmk, hfo⟩

theorem pass1ByteDir_inv (st : P1State) (dname : List Char)
    (ops : List (List Char)) (st1 : P1State) (its : List Item)
    (h : pass1ByteDir st dname ops = .ok (st1, its))
    (hinv : EntryInv st) : EntryInv st1 := by
  obtain ⟨hmk, hfo⟩ := hinv
  simp only [pass1ByteDir] at h
  repeat' split at h
  all_goals try (exfalso; exact Except.noConfusion h)
  obtain ⟨rfl, -, -⟩ := checkLcEnd_ok _ _ _ _ h
  exact ⟨hmk, hfo⟩

theorem pass1WordDir_inv (st : P1State) (dname : List Char)
    (ops : List (List Char)) (st1 : P1State) (its : List Item)
    (h : pass1WordDir st dname ops = .ok (st1, its))
    (hinv : EntryInv st) : EntryInv st1 := by
  obtain ⟨hmk, hfo⟩ := hinv
  simp only [pass1WordDir] at h
  repeat' split at h
  all_goals try (exfalso; exact Except.noConfusion h)
  obtain ⟨rfl, -, -⟩ := checkLcEnd_ok _ _ _ _ h
  exact ⟨hmk, hfo⟩

theorem pass1Ins_inv (st : P1State) (code : List Char)
    (st1 : P1State) (its : List Item)
    (h : pass1Ins st code = .ok (st1, its))
    (hinv : EntryInv st) : EntryInv st1 := by
  obtain ⟨hmk, hfo⟩ := hinv
  simp only [pass1Ins] at h
  repeat' split at h
  all_goals try (exfalso; exact Except.noConfusion h)
  obtain ⟨rfl, -, -⟩ := checkLcEnd_ok _ _ _ _ h
  exact ⟨hmk, hfo⟩

theorem pass1Dir_inv (st : P1State) (code : List Char)
    (st1 : P1State) (its : List Item)
    (h : pass1Dir st code = .ok (st1, its))
    (hinv : EntryInv st) : EntryInv st1 := by
  simp only [pass1Dir] at h
  repeat' split at h
  all_goals try (exfalso; exact Except.noConfusion h)
  · exact pass1Org_inv _ _ _ _ _ h ⟨hinv.1, hinv.2⟩
  · exact pass1String_inv _ _ _ _ _ h hinv
  · exact pass1ByteDir_inv _ _ _ _ _ h hinv
  · exact pass1WordDir_inv _ _ _ _ _ h hinv

theorem pass1Line_inv (st0 : P1State) (line : List Char)
    (st1 : P1State) (its : List Item)
    (h : pass1Line st0 line = .ok (st1, its))
    (hinv : EntryInv st0) : EntryInv st1 := by
  simp only [pass1Line] at h
  repeat' split at h
  all_goals try (exfalso; exact Except.noConfusion h)
  · simp only [Except.ok.injEq, Prod.mk.injEq] at h
    obtain ⟨rfl, rfl⟩ := h
    exact hinv
  · simp only [Except.ok.injEq, Prod.mk.injEq] at h
    obtain ⟨rfl, rfl⟩ := h
    exact ⟨hinv.1, hinv.2⟩
  · exact pass1Dir_inv _ _ _ _ h ⟨hinv.1, hinv.2⟩
  · exact pass1Ins_inv _ _ _ _ h ⟨hinv.1, hinv.2⟩

theorem pass1Lines_inv (lines : List (List Char)) (st : P1State)
    (st1 : P1State) (its : List Item)
    (h : pass1Lines st lines = .ok (st1, its))
    (hinv : EntryInv st) : EntryInv st1 := by
  induction lines generalizing st its with
  | nil =>
    simp only [pass1Lines, Except.ok.injEq, Prod.mk.injEq] at h
    obtain ⟨rfl, rfl⟩ := h
    exact hinv
  | cons line rest ih =>
    simp only [pass1Lines] at h
    repeat' split at h
    all_goals try (exfalso; exact Except.noConfusion h)
    rename_i xa sta itsa ha xb stb itsb hb
    simp only [Except.ok.injEq, Prod.mk.injEq] at h
    obtain ⟨rfl, rfl⟩ := h
    exact ih _ _ hb (pass1Line_inv _ _ _ _ ha hinv)

theorem pass1_entry (src : List (List Char)) (p : Pass1Out)
    (h : pass1 src = .ok p) :
    p.entry ≤ 0xFFFF ∧
    (∀ e, p.entryMarkAddr = some e → p.entry = e) ∧
    (p.entryMarkAddr = none → p.firstOrgAddr = some p.entry) := by
  simp only [pass1] at h
  repeat' split at h
  all_goals try (exfalso; exact Except.noConfusion h)
  · rename_i xa st items hlines hono xb e hmk
    simp only [Except.ok.injEq] at h
    subst h
    have hi := pass1Lines_inv _ _ _ _ hlines ⟨by simp [initP1], by simp [initP1]⟩
    refine ⟨hi.1 e hmk, ?_, ?_⟩
    · intro z hz
      have hz2 : st.entryMarkAddr = some z := hz
      exact Option.some.inj (hmk.symm.trans hz2)
    · intro hz
      have hz2 : st.entryMarkAddr = none := hz
      exact Option.noConfusion (hmk.symm.trans hz2)
  · rename_i xa st items hlines hono xb hmk xc a hfo
    simp only [Except.ok.injEq] at h
    subst h
    have hi := pass1Lines_inv _ _ _ _ hlines ⟨by simp [initP1], by simp [initP1]⟩
    refine ⟨hi.2 a hfo, ?_, ?_⟩
    · intro z hz
      have hz2 : st.entryMarkAddr = some z := hz
      exact Option.noConfusion (hmk.symm.trans hz2)
    · intro hz
      exact hfo

/-! ## C5: the implicit entry stub -/

/-- A one-line program used to instantiate the entry-stub theorem. -/
def c5src : List (List Char) := [".org 0x0003".toList]

/-- The image that assembling `c5src` produces. -/
def c5img : List Nat := ((initImg.set 0 0x07).set 1 0x00).set 2 0x03

/-- C5: for every source program that assembles successfully, the output
image has length exactly 65535 bytes, and its bytes 0x0000..0x0002 are
0x07 (the JMP opcode), entry >> 8 and entry & 0xFF, a JMP whose big-endian
16-bit target equals the declared entry address: the location counter at
the operandless `.org` entry marker if present, otherwise the first
numeric `.org` address. -/
theorem c5_entry_stub (src : List (List Char)) (img : List Nat)
    (h : assemble src = .ok img) :
    img.length = 65535 ∧
    ∃ p, pass1 src = .ok p ∧
      img.getD 0 0 = 0x07 ∧
      img.getD 1 0 = p.entry / 256 % 256 ∧
      img.getD 2 0 = p.entry % 256 ∧
      img.getD 1 0 * 256 + img.getD 2 0 = p.entry ∧
      (∀ e, p.entryMarkAddr = some e → p.entry = e) ∧
      (p.entryMarkAddr = none → p.firstOrgAddr = some p.entry) := by
  cases hp : pass1 src with
  | error e =>
    simp only [assemble, hp] at h
    exact Except.noConfusion h
  | ok p =>
    simp only [assemble, hp] at h
    cases he : emitItems p.sym initImg initUsed p.items with
    | error e =>
      simp only [pass2, he] at h
      exact Except.noConfusion h
    | ok r =>
      obtain ⟨img0, u0⟩ := r
      simp only [pass2, he, Except.ok.injEq] at h
      subst h
      obtain ⟨L1, -, -, -⟩ := emitItems_props _ _ _ _ _ _ he
      have hlen0 : img0.length = 65535 := by
        rw [L1]; simp only [initImg, List.length_replicate, MEM_SIZE]
      obtain ⟨hb, hmk, hfo⟩ := pass1_entry src p hp
      have g0 : (((img0.set 0 0x07).set 1 (p.entry / 256 % 256)).set 2
          (p.entry % 256)).getD 0 0 = 0x07 := by
        rw [getD_set_s8, getD_set_s8, getD_set_s8]
        simp [hlen0]
      have g1 : (((img0.set 0 0x07).set 1 (p.entry / 256 % 256)).set 2
          (p.entry % 256)).getD 1 0 = p.entry / 256 % 256 := by
        rw [getD_set_s8, getD_set_s8]
        simp [hlen0]
      have g2 : (((img0.set 0 0x07).set 1 (p.entry / 256 % 256)).set 2
          (p.entry % 256)).getD 2 0 = p.entry % 256 := by
        rw [getD_set_s8]
        simp [hlen0]
      refine ⟨by simp [hlen0], p, rfl, g0, g1, g2, ?_, hmk, hfo⟩
      rw [g1, g2]
      omega

/-- C5 witness: `.org 0x0003` assembles to the zero image with the stub
`JMP 0x0003` at the start. -/
theorem c5_entry_stub_witness :
    assemble c5src = .ok c5img ∧
    (c5img.length = 65535 ∧
     ∃ p, pass1 c5src = .ok p ∧
       c5img.getD 0 0 = 0x07 ∧
       c5img.getD 1 0 = p.entry / 256 % 256 ∧
       c5img.getD 2 0 = p.entry % 256 ∧
       c5img.getD 1 0 * 256 + c5img.getD 2 0 = p.entry ∧
       (∀ e, p.entryMarkAddr = some e → p.entry = e) ∧
       (p.entryMarkAddr = none → p.firstOrgAddr = some p.entry)) :=
  ⟨rfl, c5_entry_stub c5src c5img rfl⟩

/-! ## C6: disjointness of emitted byte ranges -/

/-- C6: every byte write of pass 2 goes through `emit_byte`, which demands
an in-range, unoccupied target and marks it occupied (first conjunct); an
already-set occupancy bit is fatal (second conjunct); addresses
0x0000..0x0002 are pre-marked occupied (third conjunct), so after any
successful run of items no emission can target them (fourth conjunct);
and the byte ranges of any two distinct pass-2 items are disjoint: an
address some earlier item wrote (occupancy bit flipped by it) is never in
the write set of any later item (fifth conjunct). -/
theorem c6_no_overlap :
    (∀ img used a v i2 u2, emit_byte img used a v = .ok (i2, u2) →
       a < MEM_SIZE ∧ used.getD a 0 = 0 ∧ i2 = img.set a v ∧ u2 = used.set a 1) ∧
    (∀ img used a v r, used.getD a 0 ≠ 0 → emit_byte img used a v ≠ .ok r) ∧
    (∀ a, a < 3 → initUsed.getD a 0 = 1) ∧
    (∀ sym items i1 u1 a v r, a < 3 →
       emitItems sym initImg initUsed items = .ok (i1, u1) →
       emit_byte i1 u1 a v ≠ .ok r) ∧
    (∀ sym i0 u0 it i1 u1 items i2 u2 it2 i3 u3 a,
       emitItem sym i0 u0 it = .ok (i1, u1) →
       emitItems sym i1 u1 items = .ok (i2, u2) →
       emitItem sym i2 u2 it2 = .ok (i3, u3) →
       u0.getD a 0 = 0 → u1.getD a 0 = 1 →
       ¬ (u2.getD a 0 = 0 ∧ u3.getD a 0 = 1)) := by
  have premark : ∀ a, a < 3 → initUsed.getD a 0 = 1 := by
    intro a ha
    interval_cases a <;> rfl
  have fatal : ∀ (img used : List Nat) (a v : Nat) (r : List Nat × List Nat),
      used.getD a 0 ≠ 0 → emit_byte img used a v ≠ .ok r := by
    intro img used a v r hne hok
    obtain ⟨ri, ru⟩ := r
    exact hne (emit_byte_ok img used a v ri ru hok).2.1
  refine ⟨?_, fatal, premark, ?_, ?_⟩
  · intro img used a v i2 u2 h
    exact emit_byte_ok img used a v i2 u2 h
  · intro sym items i1 u1 a v r ha hrun
    have hu : u1.getD a 0 = 1 :=
      (emitItems_props sym items initImg initUsed i1 u1 hrun).2.2.1 a (premark a ha)
    exact fatal i1 u1 a v r (by omega)
  · intro sym i0 u0 it i1 u1 items i2 u2 it2 i3 u3 a h1 h2 h3 hz ho
    intro hcon
    have hu2 : u2.getD a 0 = 1 :=
      (emitItems_props sym items i1 u1 i2 u2 h2).2.2.1 a ho
    omega

/-- C6 witness: a `.byte` item writing address 3 flips its occupancy bit,
and a later `.byte` item (writing address 0 of an 8-cell test bitmap)
cannot have address 3 in its write set. -/
theorem c6_no_overlap_witness :
    ((List.replicate 8 0 : List Nat).set 3 1).getD 3 0 = 1 ∧
    ¬ ((((List.replicate 8 0 : List Nat).set 3 1).getD 3 0 = 0) ∧
       ((((List.replicate 8 0 : List Nat).set 3 1).set 0 1).getD 3 0 = 1)) :=
  ⟨rfl,
   c6_no_overlap.2.2.2.2 [] (List.replicate 8 0) (List.replicate 8 0)
     ⟨ItemKind.dir, ".byte".toList, ["1".toList], 3, 1⟩
     ((List.replicate 8 0).set 3 1) ((List.replicate 8 0).set 3 1) []
     ((List.replicate 8 0).set 3 1) ((List.replicate 8 0).set 3 1)
     ⟨ItemKind.dir, ".byte".toList, ["1".toList], 0, 1⟩
     (((List.replicate 8 0).set 3 1).set 0 1)
     (((List.replicate 8 0).set 3 1).set 0 1)
     3 rfl rfl rfl rfl rfl⟩

end Sophia8
